import Mathlib

/-!
Verification of the copy-trading replication engine (`tg_mexc`).

This file gives a shallow embedding, in Lean 4, of the parts of the Go
source that the specification claims talk about:

* the fan-out execution engine (`internal/mexc/copytrading/engine.go`):
  `execute`, `saveTrade`, `saveLog` and the per-action entry points
  `OpenPosition`, `ClosePosition`, `PlacePlanOrder`, `ChangePlanPrice`,
  `ChangeLeverage`, `CancelStopOrder`, `CancelStopOrderBySymbol`;
* the execution-result predicates (`internal/mexc/copytrading/types.go`);
* the session gate and manager (`internal/mexc/copytrading/service.go`);
* the websocket frame router and the order / stop-order correlation
  table (`pkg/services/websocket/client.go`);
* the REST adapter's request signing and header construction
  (`pkg/services/mexc`, second half of `client.go`);
* the mirror-token registry (`services/copytrading`, mirror service);
* the position-event handler of the websocket driver
  (`internal/mexc/copytrading/websocket`, `service.go`).

Conventions of the embedding:

* Go `string` is Lean `String`; Go `int` / `int64` counters, ids and
  volumes are Lean `Nat` (the code never relies on overflow or on
  negative values for these); prices (`float64` in Go) are modelled as
  scaled integers (`Nat`), since every claim only compares them with `0`.
* The SQL storage is a pure state (`Store`): inserts append, updates map.
  Each fallible external effect (storage write, REST call) is driven by
  an explicit oracle argument so that failure interleavings can be
  quantified over.
* Goroutine fan-outs are modelled as left folds; every property proved
  about them (row counts, success/failure tallies) is invariant under
  the permutation the scheduler may introduce.
* The per-entry 1 s correlation timer is modelled by an explicit
  `timeout` input; a stop-order frame "arrives within the window" when
  it precedes that input in the event trace.
-/

namespace Mex

/-! ## Core data (internal/models, internal/mexc/copytrading/types.go) -/

/-- Account: the fields the engine reads (`models.Account`). -/
structure Account where
  ID : Nat
  Name : String
  deriving Repr, DecidableEq

/-- AccountResult (`types.go`): outcome of one slave task. -/
structure AccountResult where
  AccountID : Nat
  AccountName : String
  Success : Bool
  Error : String
  OrderID : String
  LatencyMs : Nat
  deriving Repr, DecidableEq

/-- ExecutionResult (`types.go`): aggregate outcome of one fan-out. -/
structure ExecutionResult where
  TotalCount : Nat
  SuccessCount : Nat
  FailedCount : Nat
  Results : List AccountResult
  deriving Repr, DecidableEq

/-- `ExecutionResult.IsFullSuccess` from `types.go`. -/
def ExecutionResult.IsFullSuccess (r : ExecutionResult) : Bool :=
  r.FailedCount == 0

/-- `ExecutionResult.IsPartialSuccess` from `types.go`. -/
def ExecutionResult.IsPartialSuccess (r : ExecutionResult) : Bool :=
  r.SuccessCount > 0 && r.FailedCount > 0

/-- `ExecutionResult.IsFullFailure` from `types.go`. -/
def ExecutionResult.IsFullFailure (r : ExecutionResult) : Bool :=
  r.SuccessCount == 0 && r.TotalCount > 0

/-- Trade record (`models.Trade`, fields the engine sets plus status). -/
structure Trade where
  UserID : Nat
  Symbol : String
  Side : Nat
  Volume : Nat
  Leverage : Nat
  Action : String
  Status : String
  Error : String
  deriving Repr, DecidableEq

/-- TradeDetail (`models.TradeDetail`, fields the engine sets). -/
structure TradeDetail where
  TradeID : Nat
  AccountID : Nat
  Status : String
  Error : String
  OrderID : String
  LatencyMs : Nat
  deriving Repr, DecidableEq

/-- ActivityLog (`models.ActivityLog`, fields the engine sets). -/
structure ActivityLog where
  UserID : Option Nat
  Level : String
  Action : String
  Message : String
  deriving Repr, DecidableEq

/-- The durable stores the engine writes: trades (keyed by the id
`CreateTrade` returns), trade details, activity log, and the symbol
cache `(order_id) → symbol` (per engine instance / user). -/
structure Store where
  trades : List (Nat × Trade)
  details : List TradeDetail
  logs : List ActivityLog
  cache : List (String × String)
  nextID : Nat
  deriving Repr, DecidableEq

/-- `CreateTrade`: insert a trade row, returning its fresh id. -/
def Store.addTrade (st : Store) (t : Trade) : Nat × Store :=
  (st.nextID,
   { st with trades := st.trades ++ [(st.nextID, t)], nextID := st.nextID + 1 })

/-- `AddTradeDetail`: insert a detail row. -/
def Store.addDetail (st : Store) (d : TradeDetail) : Store :=
  { st with details := st.details ++ [d] }

/-- `AddLog`: append an activity-log row. -/
def Store.addLog (st : Store) (l : ActivityLog) : Store :=
  { st with logs := st.logs ++ [l] }

/-- `UpdateTradeStatus`: rewrite status and error of the trade with the
given id. -/
def Store.updateStatus (st : Store) (tradeID : Nat) (status err : String) : Store :=
  { st with
    trades := st.trades.map fun p =>
      if p.1 == tradeID then (p.1, { p.2 with Status := status, Error := err }) else p }

/-- `SaveStopOrders`: transactional upsert of a batch of
`(order_id, symbol)` entries into the symbol cache. -/
def Store.saveStopOrders (st : Store) (batch : List (String × String)) : Store :=
  { st with
    cache := batch.foldl
      (fun c e => (c.filter fun p => p.1 != e.1) ++ [e]) st.cache }

/-! ## adapters.go -/

/-- `IsOpenOrder` (`adapters.go`): side 1 and 3 open a position. -/
def IsOpenOrder (side : Nat) : Bool :=
  side == 1 || side == 3

/-- `GetSideText` (`adapters.go`). -/
def GetSideText (side : Nat) : String :=
  if side == 1 then "LONG"
  else if side == 2 then "SHORT"
  else if side == 3 then "SHORT"
  else if side == 4 then "LONG"
  else ""

/-! ## Engine fan-out (`engine.go`, `Engine.execute`) -/

/-- One iteration of the fan-out accumulator: the goroutine body of
`Engine.execute` merges an `AccountResult` under the mutex. -/
def mergeResult (r : ExecutionResult) (a : AccountResult) : ExecutionResult :=
  { r with
    SuccessCount := if a.Success then r.SuccessCount + 1 else r.SuccessCount
    FailedCount := if a.Success then r.FailedCount else r.FailedCount + 1
    Results := r.Results ++ [a] }

/-- The barrier result of `Engine.execute`: all slave tasks run `fn` and
their results are merged (the scheduler's merge order only permutes
`Results`; counts are order-invariant, and we fix slave order). -/
def runExecute (slaves : List Account) (fn : Account → AccountResult) : ExecutionResult :=
  slaves.foldl (fun r acc => mergeResult r (fn acc))
    { TotalCount := slaves.length, SuccessCount := 0, FailedCount := 0, Results := [] }

/-! ## Storage oracle and `Engine.saveTrade` (`engine.go`) -/

/-- Failure oracle for the four storage calls `saveTrade` makes.
`detailErr i` is the outcome of the `AddTradeDetail` call for the
`i`-th entry of `result.Results`. -/
structure OracleStore where
  createErr : Option String
  detailErr : Nat → Option String
  statusErr : Option String
  logErr : Option String

/-- The oracle under which every storage write succeeds. -/
def happyStore : OracleStore :=
  { createErr := none, detailErr := fun _ => none,
    statusErr := none, logErr := none }

/-- The detail row `saveTrade` builds from one `AccountResult`. -/
def mkDetail (tradeID : Nat) (r : AccountResult) : TradeDetail :=
  { TradeID := tradeID
    AccountID := r.AccountID
    Status := if r.Success then "success" else "failed"
    Error := r.Error
    OrderID := r.OrderID
    LatencyMs := r.LatencyMs }

/-- The detail-writing loop of `saveTrade`.  As in the source, the loop
variable `err` is overwritten by every iteration
(`err = errors.Join(AddTradeDetail(...))`), so the returned error is the
outcome of the LAST write only; a failed write does not insert its row
but does not stop the loop. -/
def writeDetails (o : OracleStore) (tradeID : Nat) :
    Store → Nat → List AccountResult → Option String × Store
  | st, _, [] => (none, st)
  | st, i, r :: rs =>
    let step : Option String × Store :=
      match o.detailErr i with
      | some e => (some e, st)
      | none => (none, st.addDetail (mkDetail tradeID r))
    match rs with
    | [] => step
    | r2 :: rs2 => writeDetails o tradeID step.2 (i + 1) (r2 :: rs2)

/-- The final-status computation of `saveTrade`: `completed` by default,
overridden to `failed` on full failure, else to `partial` on partial
success. -/
def tradeStatus (r : ExecutionResult) : String :=
  if r.IsFullFailure then "failed"
  else if r.IsPartialSuccess then "partial"
  else "completed"

/-- The activity-log row `saveLog` appends for a trade. -/
def mkTradeLog (level : String) (record : Trade) (result : ExecutionResult) : ActivityLog :=
  { UserID := some record.UserID
    Level := level
    Action := record.Action
    Message := record.Symbol ++ " " ++ GetSideText record.Side ++ ": "
      ++ toString result.SuccessCount ++ "/" ++ toString result.TotalCount
      ++ " successful" }

/-- `Engine.saveLog` (`engine.go`). -/
def saveLog (o : OracleStore) (st : Store) (level : String) (record : Trade)
    (result : ExecutionResult) : Option String × Store :=
  match o.logErr with
  | some e => (some ("failed to add activity log: " ++ e), st)
  | none => (none, st.addLog (mkTradeLog level record result))

/-- `Engine.saveTrade` (`engine.go`): create the trade row, write one
detail row per slave result (only the last write's error is observed),
derive and store the final status (an `UpdateTradeStatus` failure is
only logged), then append the activity log. -/
def saveTrade (o : OracleStore) (st : Store) (record : Trade)
    (result : ExecutionResult) : Option String × Store :=
  match o.createErr with
  | some e => (some ("failed to create trade record: " ++ e), st)
  | none =>
    let (tradeID, st1) := st.addTrade record
    let (lastErr, st2) := writeDetails o tradeID st1 0 result.Results
    match lastErr with
    | some e => (some ("failed to save trade details: " ++ e), st2)
    | none =>
      let st3 :=
        match o.statusErr with
        | some _ => st2
        | none => st2.updateStatus tradeID (tradeStatus result) ""
      saveLog o st3 "info" record result

/-! ## `Engine.getSlaves` / `Engine.execute` and the per-action pipeline -/

/-- Results of the two account-store reads the engine makes
(`GetMasterAccount`, `GetSlaveAccounts(userID, false)`). -/
structure UserStore where
  master : Except String Account
  slaves : Except String (List Account)

/-- `Engine.getSlaves` (`engine.go`): verify a master is configured,
then load the enabled slaves. -/
def getSlaves (u : UserStore) : Except String (List Account) :=
  match u.master with
  | .error e => .error ("failed to get master account: " ++ e)
  | .ok _ =>
    match u.slaves with
    | .error e => .error ("failed to get slave accounts: " ++ e)
    | .ok s => .ok s

/-- `Engine.execute` (`engine.go`): load slaves, fan out `fn`, collect. -/
def engineExecute (u : UserStore) (fn : Account → AccountResult) :
    Except String ExecutionResult :=
  match getSlaves u with
  | .error e => .error ("failed to get slave accounts: " ++ e)
  | .ok slaves => .ok (runExecute slaves fn)

/-- The shared tail of every engine action: run the fan-out, then
`saveTrade`; a pre-fan-out failure or a `saveTrade` failure surfaces to
the caller (with any partial storage writes kept). -/
def engineAction (o : OracleStore) (u : UserStore) (st : Store)
    (fn : Account → AccountResult) (record : Trade) :
    Except String ExecutionResult × Store :=
  match engineExecute u fn with
  | .error e => (.error e, st)
  | .ok result =>
    match saveTrade o st record result with
    | (some e, st2) => (.error ("failed to save trade: " ++ e), st2)
    | (none, st2) => (.ok result, st2)

/-! ## Per-slave tasks (`engine.go` process functions) with REST traces

`mexc.NewClient` in the source never returns a non-nil error (it ends
`return client, nil`), so client construction is modelled as always
succeeding.  Each REST operation a per-account client may perform is
recorded in a request trace; the operations' outcomes are drawn from a
per-account `ClientEnv` oracle. -/

/-- An open position row (`models.Position`, fields the adapter reads). -/
structure Position where
  Symbol : String
  PositionID : Nat
  HoldVol : Nat
  PositionType : Nat
  Leverage : Nat
  deriving Repr, DecidableEq

/-- An open stop order (`models.StopOrder`, fields the engine reads). -/
structure StopOrder where
  Id : Nat
  OrderId : String
  Symbol : String
  deriving Repr, DecidableEq

/-- The REST requests a slave task can issue.  `get...` are reads,
`post...` are the exchange writes disabled by dry-run. -/
inductive Req where
  | getLeverage (symbol : String) (side : Nat)
  | getPositions (symbol : String)
  | getStopOrders (symbol : String)
  | postOrderCreate (symbol : String)
  | postPlanOrderPlace (symbol : String)
  | postChangePlanPrice (orderID : Nat)
  | postStopOrderCancel (orderID : Nat)
  | postChangeLeverage (symbol : String)
  deriving Repr, DecidableEq

/-- Whether a request is one of the exchange writes (POSTs). -/
def Req.isPost : Req → Bool
  | .getLeverage _ _ => false
  | .getPositions _ => false
  | .getStopOrders _ => false
  | _ => true

/-- Outcomes of the REST calls one per-account client may make. -/
structure ClientEnv where
  leverage : Except String Nat
  placeOrder : Except String String
  positions : Except String (List Position)
  closePostErr : Position → Option String
  stopOrders : Except String (List StopOrder)
  planOrderErr : Option String
  changePlanErr : Option String
  cancelErr : Option String
  changeLeverageErr : Option String

/-- A fresh, not-yet-successful `AccountResult` for an account, as each
process function builds it. -/
def baseResult (acc : Account) : AccountResult :=
  { AccountID := acc.ID, AccountName := acc.Name, Success := false,
    Error := "", OrderID := "", LatencyMs := 0 }

/-- The close loop of adapter `Client.ClosePosition`: for every position
on the symbol with non-zero holding, POST an opposite-side market close;
stop at the first failing POST. -/
def closePositionsLoop (env : ClientEnv) (symbol : String) :
    List Position → Option String × List Req
  | [] => (none, [])
  | p :: ps =>
    if p.Symbol == symbol && p.HoldVol > 0 then
      match env.closePostErr p with
      | some e => (some e, [Req.postOrderCreate symbol])
      | none =>
        let rest := closePositionsLoop env symbol ps
        (rest.1, Req.postOrderCreate symbol :: rest.2)
    else closePositionsLoop env symbol ps

/-- Adapter `Client.ClosePosition` (`pkg/services/mexc`): read the open
positions for the symbol, then close each matching one. -/
def clientClosePosition (env : ClientEnv) (symbol : String) :
    Option String × List Req :=
  match env.positions with
  | .error e => (some e, [Req.getPositions symbol])
  | .ok ps =>
    let loop := closePositionsLoop env symbol ps
    (loop.1, Req.getPositions symbol :: loop.2)

/-- `OpenPositionRequest` (`types.go`). -/
structure OpenPositionRequest where
  Symbol : String
  Side : Nat
  Volume : Nat
  Leverage : Nat
  StopLossPrice : Nat
  deriving Repr, DecidableEq

/-- `ClosePositionRequest` (`types.go`). -/
structure ClosePositionRequest where
  Symbol : String
  Side : Nat
  Volume : Nat
  PositionID : Nat
  deriving Repr, DecidableEq

/-- `PlacePlanOrderRequest` (`types.go`). -/
structure PlacePlanOrderRequest where
  Symbol : String
  StopLossPrice : Nat
  TakeProfitPrice : Nat
  LossTrend : Nat
  ProfitTrend : Nat
  deriving Repr, DecidableEq

/-- `ChangePlanPriceRequest` (`types.go`). -/
structure ChangePlanPriceRequest where
  StopPlanOrderID : Nat
  Symbol : String
  StopLossPrice : Nat
  LossTrend : Nat
  ProfitTrend : Nat
  StopLossReverse : Nat
  TakeProfitReverse : Nat
  deriving Repr, DecidableEq

/-- `ChangeLeverageRequest` (`types.go`). -/
structure ChangeLeverageRequest where
  Symbol : String
  Leverage : Nat
  OpenType : Nat
  PositionType : Nat
  deriving Repr, DecidableEq

/-- `Engine.processOpenPosition`: read the slave's own leverage for the
side first; in dry-run stop there with success; otherwise place the
order (with the stop-loss when positive). -/
def processOpenPosition (dryRun : Bool) (env : ClientEnv) (acc : Account)
    (req : OpenPositionRequest) : AccountResult × List Req :=
  let base := baseResult acc
  match env.leverage with
  | .error e => ({ base with Error := e }, [Req.getLeverage req.Symbol req.Side])
  | .ok _ =>
    if dryRun then
      ({ base with Success := true }, [Req.getLeverage req.Symbol req.Side])
    else
      match env.placeOrder with
      | .error e =>
        ({ base with Error := e },
         [Req.getLeverage req.Symbol req.Side, Req.postOrderCreate req.Symbol])
      | .ok oid =>
        ({ base with Success := true, OrderID := oid },
         [Req.getLeverage req.Symbol req.Side, Req.postOrderCreate req.Symbol])

/-- `Engine.processClosePosition`: the dry-run check precedes the call
into the adapter, so in dry-run no request at all is issued. -/
def processClosePosition (dryRun : Bool) (env : ClientEnv) (acc : Account)
    (req : ClosePositionRequest) : AccountResult × List Req :=
  let base := baseResult acc
  if dryRun then ({ base with Success := true }, [])
  else
    match clientClosePosition env req.Symbol with
    | (some e, reqs) => ({ base with Error := e }, reqs)
    | (none, reqs) => ({ base with Success := true }, reqs)

/-- `Engine.processPlacePlanOrder`. -/
def processPlacePlanOrder (dryRun : Bool) (env : ClientEnv) (acc : Account)
    (req : PlacePlanOrderRequest) : AccountResult × List Req :=
  let base := baseResult acc
  if dryRun then ({ base with Success := true }, [])
  else
    match env.planOrderErr with
    | some e => ({ base with Error := e }, [Req.postPlanOrderPlace req.Symbol])
    | none => ({ base with Success := true }, [Req.postPlanOrderPlace req.Symbol])

/-- `Engine.processChangePlanPrice`: read the slave's own open stop
orders for the symbol; an empty list is a successful no-op; otherwise
modify the first one (substituting the slave's own order id), skipping
the POST in dry-run. -/
def processChangePlanPrice (dryRun : Bool) (env : ClientEnv) (symbol : String)
    (acc : Account) (_req : ChangePlanPriceRequest) : AccountResult × List Req :=
  let base := baseResult acc
  match env.stopOrders with
  | .error e => ({ base with Error := e }, [Req.getStopOrders symbol])
  | .ok [] => ({ base with Success := true }, [Req.getStopOrders symbol])
  | .ok (o :: _) =>
    if dryRun then ({ base with Success := true }, [Req.getStopOrders symbol])
    else
      match env.changePlanErr with
      | some e =>
        ({ base with Error := e },
         [Req.getStopOrders symbol, Req.postChangePlanPrice o.Id])
      | none =>
        ({ base with Success := true },
         [Req.getStopOrders symbol, Req.postChangePlanPrice o.Id])

/-- `Engine.processCancelStopOrder`: read the slave's open stop orders;
empty is a successful no-op; otherwise cancel the first one, skipping
the POST in dry-run. -/
def processCancelStopOrder (dryRun : Bool) (env : ClientEnv) (acc : Account)
    (symbol : String) : AccountResult × List Req :=
  let base := baseResult acc
  match env.stopOrders with
  | .error e => ({ base with Error := e }, [Req.getStopOrders symbol])
  | .ok [] => ({ base with Success := true }, [Req.getStopOrders symbol])
  | .ok (o :: _) =>
    if dryRun then ({ base with Success := true }, [Req.getStopOrders symbol])
    else
      match env.cancelErr with
      | some e =>
        ({ base with Error := e },
         [Req.getStopOrders symbol, Req.postStopOrderCancel o.Id])
      | none =>
        ({ base with Success := true },
         [Req.getStopOrders symbol, Req.postStopOrderCancel o.Id])

/-- `Engine.processChangeLeverage`. -/
def processChangeLeverage (dryRun : Bool) (env : ClientEnv) (acc : Account)
    (req : ChangeLeverageRequest) : AccountResult × List Req :=
  let base := baseResult acc
  if dryRun then ({ base with Success := true }, [])
  else
    match env.changeLeverageErr with
    | some e => ({ base with Error := e }, [Req.postChangeLeverage req.Symbol])
    | none => ({ base with Success := true }, [Req.postChangeLeverage req.Symbol])

/-! ## Engine entry points (`engine.go`) -/

/-- Everything one engine call draws from its surroundings: the storage
failure oracle, the account-store reads, the dry-run flag, the
per-account REST oracle, the symbol-cache read oracle (`cache oid` is
the symbol when `GetStopOrderSymbol` succeeded with a non-empty value,
`none` otherwise), the master's `GetOpenStopOrders("")` answer, and the
acting user. -/
structure EngineCtx where
  o : OracleStore
  u : UserStore
  dryRun : Bool
  cenv : Account → ClientEnv
  cache : String → Option String
  masterOrders : Except String (List StopOrder)
  userID : Nat

/-- A blank trade record, to be filled per action as `engine.go` does. -/
def blankTrade (userID : Nat) (action : String) : Trade :=
  { UserID := userID, Symbol := "", Side := 0, Volume := 0, Leverage := 0,
    Action := action, Status := "", Error := "" }

/-- `Engine.OpenPosition`. -/
def EngineOpenPosition (ctx : EngineCtx) (st : Store) (req : OpenPositionRequest) :
    Except String ExecutionResult × Store :=
  engineAction ctx.o ctx.u st
    (fun acc => (processOpenPosition ctx.dryRun (ctx.cenv acc) acc req).1)
    { blankTrade ctx.userID "open_position" with
      Symbol := req.Symbol, Side := req.Side, Volume := req.Volume,
      Leverage := req.Leverage }

/-- `Engine.ClosePosition`. -/
def EngineClosePosition (ctx : EngineCtx) (st : Store) (req : ClosePositionRequest) :
    Except String ExecutionResult × Store :=
  engineAction ctx.o ctx.u st
    (fun acc => (processClosePosition ctx.dryRun (ctx.cenv acc) acc req).1)
    { blankTrade ctx.userID "close_position" with Symbol := req.Symbol }

/-- `Engine.PlacePlanOrder`. -/
def EnginePlacePlanOrder (ctx : EngineCtx) (st : Store) (req : PlacePlanOrderRequest) :
    Except String ExecutionResult × Store :=
  engineAction ctx.o ctx.u st
    (fun acc => (processPlacePlanOrder ctx.dryRun (ctx.cenv acc) acc req).1)
    { blankTrade ctx.userID "place_plan_order" with Symbol := req.Symbol }

/-- `Engine.ChangeLeverage`. -/
def EngineChangeLeverage (ctx : EngineCtx) (st : Store) (req : ChangeLeverageRequest) :
    Except String ExecutionResult × Store :=
  engineAction ctx.o ctx.u st
    (fun acc => (processChangeLeverage ctx.dryRun (ctx.cenv acc) acc req).1)
    { blankTrade ctx.userID "change_leverage" with
      Symbol := req.Symbol, Leverage := req.Leverage }

/-- `Engine.CancelStopOrderBySymbol`. -/
def EngineCancelStopOrderBySymbol (ctx : EngineCtx) (st : Store) (symbol : String) :
    Except String ExecutionResult × Store :=
  engineAction ctx.o ctx.u st
    (fun acc => (processCancelStopOrder ctx.dryRun (ctx.cenv acc) acc symbol).1)
    { blankTrade ctx.userID "cancel_stop_order" with Symbol := symbol }

/-- The symbol-resolution phase of `Engine.ChangePlanPrice`: request
symbol hint first, then the cache, then a master-side
`GetOpenStopOrders` (caching everything it returned, keyed by the
numeric `order.Id`); if the batch cannot name the order, fail with
`stop order N not found` before any fan-out. -/
def resolvePlanSymbol (ctx : EngineCtx) (st : Store) (req : ChangePlanPriceRequest) :
    Except String String × Store :=
  let orderID := toString req.StopPlanOrderID
  let symbol0 := if req.Symbol == "" then ((ctx.cache orderID).getD "") else req.Symbol
  if symbol0 == "" then
    match ctx.u.master with
    | .error e => (.error ("failed to get master account: " ++ e), st)
    | .ok _ =>
      match ctx.masterOrders with
      | .error e => (.error ("failed to get master open orders: " ++ e), st)
      | .ok orders =>
        let symbol1 := orders.foldl
          (fun s o => if o.Id == req.StopPlanOrderID then o.Symbol else s) ""
        let st2 :=
          if orders.length > 0 then
            st.saveStopOrders (orders.map fun o => (toString o.Id, o.Symbol))
          else st
        if symbol1 == "" then
          (.error ("stop order " ++ toString req.StopPlanOrderID ++ " not found"), st2)
        else (.ok symbol1, st2)
  else (.ok symbol0, st)

/-- `Engine.ChangePlanPrice`. -/
def EngineChangePlanPrice (ctx : EngineCtx) (st : Store) (req : ChangePlanPriceRequest) :
    Except String ExecutionResult × Store :=
  match resolvePlanSymbol ctx st req with
  | (.error e, st2) => (.error e, st2)
  | (.ok symbol, st2) =>
    engineAction ctx.o ctx.u st2
      (fun acc => (processChangePlanPrice ctx.dryRun (ctx.cenv acc) symbol acc req).1)
      { blankTrade ctx.userID "change_plan_price" with Symbol := symbol }

/-- One iteration of `CancelStopOrder`'s cache pass: a hit appends the
symbol, a miss records the id as missing. -/
def cacheStep (cache : String → Option String)
    (p : List String × List String) (oid : String) : List String × List String :=
  match cache oid with
  | some s => (p.1 ++ [s], p.2)
  | none => (p.1, p.2 ++ [oid])

/-- The symbol-resolution phase of `Engine.CancelStopOrder`: look every
order id up in the cache; for the misses, make a single master-side
`GetOpenStopOrders` call, cache everything it returned, and collect the
symbol of every returned order whose id was missing. -/
def cancelResolveSymbols (ctx : EngineCtx) (st : Store) (orderIDs : List Nat) :
    Except String (List String) × Store :=
  let ids := orderIDs.map (fun i => toString i)
  let pass := ids.foldl (cacheStep ctx.cache) ([], [])
  if pass.2.length > 0 then
    match ctx.u.master with
    | .error e => (.error ("failed to get master account: " ++ e), st)
    | .ok _ =>
      match ctx.masterOrders with
      | .error e => (.error ("failed to get master open orders: " ++ e), st)
      | .ok orders =>
        let symbols := orders.foldl
          (fun acc o =>
            if pass.2.contains (toString o.Id) then acc ++ [o.Symbol] else acc)
          pass.1
        let st2 :=
          if orders.length > 0 then
            st.saveStopOrders (orders.map fun o => (toString o.Id, o.Symbol))
          else st
        (.ok symbols, st2)
  else (.ok pass.1, st)

/-- The empty execution result `Engine.CancelStopOrder` starts its merge
from. -/
def emptyResult : ExecutionResult :=
  { TotalCount := 0, SuccessCount := 0, FailedCount := 0, Results := [] }

/-- Merging one per-symbol fan-out result into the running aggregate
(under the mutex in the source). -/
def mergeExec (a b : ExecutionResult) : ExecutionResult :=
  { TotalCount := a.TotalCount + b.TotalCount
    SuccessCount := a.SuccessCount + b.SuccessCount
    FailedCount := a.FailedCount + b.FailedCount
    Results := a.Results ++ b.Results }

/-- The errgroup of `Engine.CancelStopOrder`: one full slave fan-out per
resolved symbol, merged; any fan-out error fails the whole group. -/
def cancelFanout (ctx : EngineCtx) : List String → Except String ExecutionResult
  | [] => .ok emptyResult
  | sym :: rest =>
    match engineExecute ctx.u
        (fun acc => (processCancelStopOrder ctx.dryRun (ctx.cenv acc) acc sym).1) with
    | .error e => .error e
    | .ok r =>
      match cancelFanout ctx rest with
      | .error e => .error e
      | .ok r2 => .ok (mergeExec r r2)

/-- `Engine.CancelStopOrder`: resolve symbols, fail with
`order not found` when none resolved, else run one fan-out per symbol
and save a single merged trade. -/
def EngineCancelStopOrder (ctx : EngineCtx) (st : Store) (orderIDs : List Nat) :
    Except String ExecutionResult × Store :=
  match cancelResolveSymbols ctx st orderIDs with
  | (.error e, st2) => (.error e, st2)
  | (.ok symbols, st2) =>
    if symbols.length == 0 then (.error "order not found", st2)
    else
      match cancelFanout ctx symbols with
      | .error e => (.error ("failed to cancel stop orders: " ++ e), st2)
      | .ok result =>
        match saveTrade ctx.o st2 (blankTrade ctx.userID "cancel_stop_order") result with
        | (some e, st3) => (.error ("failed to save trade: " ++ e), st3)
        | (none, st3) => (.ok result, st3)

/-! ## Sessions and the manager (`service.go`)

A Go `*Session` is a heap object that callers keep after the manager
drops it from its map, so the model separates the heap of session
objects (keyed by an allocation reference) from the manager map
`user_id → reference`.  Heap entries are never removed — `StopSession`
only clears the `active` flag of the object and deletes the map entry,
exactly as the source does. -/

/-- The mutable state of one `Session` object. -/
structure SessionState where
  userID : Nat
  name : String
  active : Bool
  deriving Repr, DecidableEq

/-- The world a manager call sees: session heap, manager map, stores. -/
structure World where
  heap : List (Nat × SessionState)
  mgr : List (Nat × Nat)
  store : Store
  deriving Repr, DecidableEq

/-- `Manager.StopSession`: error when the user has no session; else
clear the session object's `active` flag, delete the map entry, and
append the `copy_trading_stop` log. -/
def stopSession (w : World) (userID : Nat) (name : String) : Except String World :=
  match w.mgr.lookup userID with
  | none => .error "session not found"
  | some ref =>
    .ok
      { heap := w.heap.map fun p =>
          if p.1 == ref then (p.1, { p.2 with active := false }) else p
        mgr := w.mgr.filter fun p => p.1 != userID
        store := w.store.addLog
          { UserID := some userID, Level := "info", Action := "copy_trading_stop",
            Message := "Copy trading session stopped (mode: " ++ name ++ ")" } }

/-- The seven operations a `Session` exposes. -/
inductive SessionOp where
  | openPosition (req : OpenPositionRequest)
  | closePosition (req : ClosePositionRequest)
  | placePlanOrder (req : PlacePlanOrderRequest)
  | changePlanPrice (req : ChangePlanPriceRequest)
  | changeLeverage (req : ChangeLeverageRequest)
  | cancelStopOrder (ids : List Nat)
  | cancelStopOrderBySymbol (symbol : String)
  deriving Repr, DecidableEq

/-- Dispatch of a session operation to the engine entry point it wraps. -/
def runEngineOp (ctx : EngineCtx) (st : Store) :
    SessionOp → Except String ExecutionResult × Store
  | .openPosition req => EngineOpenPosition ctx st req
  | .closePosition req => EngineClosePosition ctx st req
  | .placePlanOrder req => EnginePlacePlanOrder ctx st req
  | .changePlanPrice req => EngineChangePlanPrice ctx st req
  | .changeLeverage req => EngineChangeLeverage ctx st req
  | .cancelStopOrder ids => EngineCancelStopOrder ctx st ids
  | .cancelStopOrderBySymbol sym => EngineCancelStopOrderBySymbol ctx st sym

/-- `Session.execute` (`service.go`): the gate.  `ensureActive` fails
with `session is not active` before the wrapped engine call otherwise
runs.  (A dangling reference — impossible for references handed out by
the manager — behaves like an inactive session.) -/
def sessionRun (ctx : EngineCtx) (w : World) (ref : Nat) (op : SessionOp) :
    Except String ExecutionResult × World :=
  match w.heap.lookup ref with
  | some s =>
    if s.active then
      let r := runEngineOp ctx w.store op
      (r.1, { w with store := r.2 })
    else (.error "session is not active", w)
  | none => (.error "session is not active", w)

/-- Running a whole sequence of operations through one session handle,
keeping only the world (the ingest drivers discard results on error). -/
def sessionRunAll (ctx : EngineCtx) (ref : Nat) (w : World) :
    List SessionOp → World
  | [] => w
  | op :: ops => sessionRunAll ctx ref (sessionRun ctx w ref op).2 ops

/-! ## Websocket events and the correlation table
(`pkg/services/websocket/client.go`) -/

/-- `StopOrderEvent` frame payload. -/
structure StopOrderEvent where
  Symbol : String
  OrderID : String
  LossTrend : Nat
  ProfitTrend : Nat
  StopLossPrice : Nat
  TakeProfitPrice : Nat
  deriving Repr, DecidableEq

/-- `OrderEvent` frame payload; `StopOrderEvent` is the attached stop
order the correlation step may fill in (nil on the wire). -/
structure OrderEvent where
  OrderID : String
  Symbol : String
  PositionID : Nat
  Vol : Nat
  Leverage : Nat
  Side : Nat
  State : Nat
  StopOrderEvent : Option StopOrderEvent
  deriving Repr, DecidableEq

/-- `PositionEvent` frame payload (state 3 = closed). -/
structure PositionEvent where
  PositionID : Nat
  Symbol : String
  HoldVol : Nat
  PositionType : Nat
  State : Nat
  deriving Repr, DecidableEq

/-- `StopPlanOrderEvent` frame payload. -/
structure StopPlanOrderEvent where
  IsFinished : Nat
  LossTrend : Nat
  OrderId : String
  Symbol : String
  ProfitTrend : Nat
  StopLossReverse : Nat
  TakeProfitReverse : Nat
  StopLossPrice : Nat
  deriving Repr, DecidableEq

/-- `DealEvent` frame payload (PnL logging only). -/
structure DealEvent where
  ID : String
  Symbol : String
  Profit : Int
  deriving Repr, DecidableEq

/-- The pending-order table (`Client.pendingOrders`), keyed by order id. -/
def PendingTable := List (String × OrderEvent)

/-- Map-style insert: a second order event with the same id replaces the
first, as assignment into the Go map does. -/
def pendingInsert (t : PendingTable) (e : OrderEvent) : PendingTable :=
  (t.filter fun p => p.1 != e.OrderID) ++ [(e.OrderID, e)]

/-- Map lookup on the pending table. -/
def pendingLookup (t : PendingTable) (oid : String) : Option OrderEvent :=
  List.lookup oid t

/-- Map delete on the pending table. -/
def pendingDelete (t : PendingTable) (oid : String) : PendingTable :=
  t.filter fun p => p.1 != oid

/-- Inputs of the correlation machine: an order frame, a stop-order
frame, or the firing of one pending entry's 1 s timer.  A stop-order
frame arrives inside the window exactly when it precedes the `timeout`
input for that order id in the trace. -/
inductive WsIn where
  | order (e : OrderEvent)
  | stop (e : StopOrderEvent)
  | timeout (oid : String)
  deriving Repr, DecidableEq

/-- Emissions of the correlation machine: a call of the order handler or
of the separate stop-order handler. -/
inductive WsOut where
  | toOrder (e : OrderEvent)
  | toStop (e : StopOrderEvent)
  deriving Repr, DecidableEq

/-- One step of the correlation machine, mirroring
`handleOrderEventMatching`, `handleStopOrderEventMatching` and the
`AfterFunc` body: an order is parked; a stop order that finds its
pending partner cancels the timer, removes the entry and emits the
combined event; an unmatched stop order goes to the stop-order handler;
a timer that still finds its entry emits the order alone, and a timer
whose entry was already matched away does nothing. -/
def wsStep (t : PendingTable) : WsIn → PendingTable × List WsOut
  | .order e => (pendingInsert t e, [])
  | .stop s =>
    match pendingLookup t s.OrderID with
    | some p =>
      (pendingDelete t s.OrderID,
       [WsOut.toOrder { p with StopOrderEvent := some s }])
    | none => (t, [WsOut.toStop s])
  | .timeout oid =>
    match pendingLookup t oid with
    | some p => (pendingDelete t oid, [WsOut.toOrder p])
    | none => (t, [])

/-- Running the machine over a trace, collecting all emissions. -/
def wsRun (t : PendingTable) : List WsIn → PendingTable × List WsOut
  | [] => (t, [])
  | i :: is =>
    let s := wsStep t i
    let r := wsRun s.1 is
    (r.1, s.2 ++ r.2)

/-! ## Frame router (`Client.handleMessage`) -/

/-- The decoded payload carried by a frame: which event type the frame's
`data` successfully unmarshals into (a frame whose data does not decode
as the channel's event type is dropped with an error log). -/
inductive MsgData where
  | order (e : OrderEvent)
  | position (e : PositionEvent)
  | stopOrder (e : StopOrderEvent)
  | stopPlan (e : StopPlanOrderEvent)
  | deal (e : DealEvent)
  | other
  deriving Repr, DecidableEq

/-- A websocket frame: channel plus decoded payload. -/
structure Msg where
  channel : String
  data : MsgData
  deriving Repr, DecidableEq

/-- Where `handleMessage` routes a frame. -/
inductive Dispatch where
  | orderMatching (e : OrderEvent)
  | stopOrderMatching (e : StopOrderEvent)
  | stopPlanHandler (e : StopPlanOrderEvent)
  | orderDealHandler (e : DealEvent)
  | positionHandler (e : PositionEvent)
  deriving Repr, DecidableEq

/-- `Client.handleMessage` (`pkg/services/websocket/client.go`): the
channel switch.  Note that in the source the entire body of the
`push.personal.position` case is commented out, so a position frame is
routed nowhere. -/
def handleMessage (m : Msg) : Option Dispatch :=
  if m.channel == "push.personal.order" then
    match m.data with
    | .order e => some (.orderMatching e)
    | _ => none
  else if m.channel == "push.personal.position" then
    none
  else if m.channel == "push.personal.stop.order" then
    match m.data with
    | .stopOrder e => some (.stopOrderMatching e)
    | _ => none
  else if m.channel == "push.personal.stop.planorder" then
    match m.data with
    | .stopPlan e => some (.stopPlanHandler e)
    | _ => none
  else if m.channel == "push.personal.order.deal" then
    match m.data with
    | .deal e => some (.orderDealHandler e)
    | _ => none
  else none

/-! ## The websocket driver's position handler
(`internal/mexc/copytrading/websocket/service.go`) -/

/-- `fromWebSocketPosition`: only a closed position (`state = 3`) maps
to a close request (symbol only). -/
def fromWebSocketPosition (e : PositionEvent) : Option ClosePositionRequest :=
  if e.State != 3 then none
  else some { Symbol := e.Symbol, Side := 0, Volume := 0, PositionID := 0 }

/-- The session invocation a driver handler makes. -/
inductive SessionCall where
  | closePosition (req : ClosePositionRequest)
  deriving Repr, DecidableEq

/-- `Service.handlePositionEvent`: convert and, when the conversion
yields a request, invoke `session.ClosePosition` with it. -/
def handlePositionEvent (e : PositionEvent) : Option SessionCall :=
  match fromWebSocketPosition e with
  | none => none
  | some req => some (.closePosition req)

/-! ## Mirror token registry (`services/copytrading`, mirror service) -/

/-- A mirror token entry (`mirrorToken`). -/
structure MirrorToken where
  Token : String
  UserID : Nat
  Username : String
  deriving Repr, DecidableEq

/-- The registry state: `mirrorService.tokens`, keyed by token string. -/
structure MirrorTokens where
  tokens : List (String × MirrorToken)
  deriving Repr, DecidableEq

/-- The delete loop of `getOrCreateTokenLocked`: remove the first entry
belonging to the user (`break` after the first hit). -/
def deleteFirstFor (userID : Nat) :
    List (String × MirrorToken) → List (String × MirrorToken)
  | [] => []
  | p :: ps => if p.2.UserID == userID then ps else p :: deleteFirstFor userID ps

/-- `mirrorService.getOrCreateTokenLocked`: if ANY entry for the user
exists, return its token unchanged (first loop); only otherwise run the
delete loop and insert a freshly generated 16-byte hex token (`fresh`
stands for the `crypto/rand` output). -/
def getOrCreateTokenLocked (fresh : String) (s : MirrorTokens) (userID : Nat)
    (username : String) : String × MirrorTokens :=
  match s.tokens.find? (fun p => p.2.UserID == userID) with
  | some p => (p.2.Token, s)
  | none =>
    let cleaned := deleteFirstFor userID s.tokens
    (fresh,
     { tokens := cleaned ++
         [(fresh, { Token := fresh, UserID := userID, Username := username })] })

/-! ## Request signing (`pkg/services/mexc`, `generateSignature`,
`setHeaders`)

`md5Hash` in the source is `hex.EncodeToString(md5.Sum(input))`; MD5 is
implemented here concretely (RFC 1321) over byte lists, with 32-bit
words as `Nat` reduced mod `2^32`. -/

/-- The 64 MD5 sine constants. -/
def md5K : List Nat :=
  [3614090360, 3905402710, 606105819, 3250441966,
   4118548399, 1200080426, 2821735955, 4249261313,
   1770035416, 2336552879, 4294925233, 2304563134,
   1804603682, 4254626195, 2792965006, 1236535329,
   4129170786, 3225465664, 643717713, 3921069994,
   3593408605, 38016083, 3634488961, 3889429448,
   568446438, 3275163606, 4107603335, 1163531501,
   2850285829, 4243563512, 1735328473, 2368359562,
   4294588738, 2272392833, 1839030562, 4259657740,
   2763975236, 1272893353, 4139469664, 3200236656,
   681279174, 3936430074, 3572445317, 76029189,
   3654602809, 3873151461, 530742520, 3299628645,
   4096336452, 1126891415, 2878612391, 4237533241,
   1700485571, 2399980690, 4293915773, 2240044497,
   1873313359, 4264355552, 2734768916, 1309151649,
   4149444226, 3174756917, 718787259, 3951481745]

/-- The 64 per-round left-rotation amounts. -/
def md5Shifts : List Nat :=
  [7, 12, 17, 22, 7, 12, 17, 22, 7, 12, 17, 22, 7, 12, 17, 22,
   5, 9, 14, 20, 5, 9, 14, 20, 5, 9, 14, 20, 5, 9, 14, 20,
   4, 11, 16, 23, 4, 11, 16, 23, 4, 11, 16, 23, 4, 11, 16, 23,
   6, 10, 15, 21, 6, 10, 15, 21, 6, 10, 15, 21, 6, 10, 15, 21]

/-- 32-bit left rotation on `Nat` (arguments below `2^32`). -/
def rotl32 (x n : Nat) : Nat :=
  ((x <<< n) % 4294967296) ||| (x >>> (32 - n))

/-- 32-bit complement. -/
def not32 (x : Nat) : Nat :=
  x ^^^ 4294967295

/-- Little-endian 32-bit word `g` of a 64-byte block. -/
def leWord (block : List Nat) (g : Nat) : Nat :=
  block.getD (4 * g) 0 + 256 * block.getD (4 * g + 1) 0
    + 65536 * block.getD (4 * g + 2) 0 + 16777216 * block.getD (4 * g + 3) 0

/-- The MD5 chaining state. -/
structure MD5State where
  a : Nat
  b : Nat
  c : Nat
  d : Nat
  deriving Repr, DecidableEq

/-- One of the 64 MD5 rounds. -/
def md5Round (block : List Nat) (st : MD5State) (i : Nat) : MD5State :=
  let f :=
    if i < 16 then (st.b &&& st.c) ||| (not32 st.b &&& st.d)
    else if i < 32 then (st.d &&& st.b) ||| (not32 st.d &&& st.c)
    else if i < 48 then st.b ^^^ st.c ^^^ st.d
    else st.c ^^^ (st.b ||| not32 st.d)
  let g :=
    if i < 16 then i
    else if i < 32 then (5 * i + 1) % 16
    else if i < 48 then (3 * i + 5) % 16
    else (7 * i) % 16
  let f2 := (f + st.a + md5K.getD i 0 + leWord block g) % 4294967296
  { a := st.d, b := (st.b + rotl32 f2 (md5Shifts.getD i 0)) % 4294967296,
    c := st.b, d := st.c }

/-- Process one 64-byte block. -/
def md5Block (st : MD5State) (block : List Nat) : MD5State :=
  let r := (List.range 64).foldl (md5Round block) st
  { a := (st.a + r.a) % 4294967296, b := (st.b + r.b) % 4294967296,
    c := (st.c + r.c) % 4294967296, d := (st.d + r.d) % 4294967296 }

/-- Take `n` chunks of 64 bytes off the front of a byte list. -/
def chunksAux : Nat → List Nat → List (List Nat)
  | 0, _ => []
  | n + 1, l => l.take 64 :: chunksAux n (l.drop 64)

/-- Split a byte list whose length is a multiple of 64 (as every padded
message is) into its 64-byte blocks. -/
def chunks64 (l : List Nat) : List (List Nat) :=
  chunksAux (l.length / 64) l

/-- The 8-byte little-endian encoding of the 64-bit message bit length. -/
def leBytes8 (n : Nat) : List Nat :=
  (List.range 8).map fun i => (n >>> (8 * i)) % 256

/-- MD5 padding: `0x80`, zeros to 56 mod 64, then the bit length. -/
def md5Pad (msg : List Nat) : List Nat :=
  let len := msg.length
  let zeros := (120 - ((len + 1) % 64)) % 64
  msg ++ [128] ++ List.replicate zeros 0
    ++ leBytes8 ((len * 8) % 18446744073709551616)

/-- Little-endian bytes of one state word. -/
def word32Bytes (w : Nat) : List Nat :=
  [w % 256, (w >>> 8) % 256, (w >>> 16) % 256, (w >>> 24) % 256]

/-- The full MD5 digest (16 bytes) of a byte list. -/
def md5Digest (msg : List Nat) : List Nat :=
  let st := (chunks64 (md5Pad msg)).foldl md5Block
    { a := 1732584193, b := 4023233417, c := 2562383102, d := 271733878 }
  word32Bytes st.a ++ word32Bytes st.b ++ word32Bytes st.c ++ word32Bytes st.d

/-- Lower-case hex digit. -/
def hexChar (n : Nat) : Char :=
  if n < 10 then Char.ofNat (48 + n) else Char.ofNat (87 + n)

/-- Two-digit lower-case hex of one byte. -/
def byteHex (b : Nat) : String :=
  String.mk [hexChar (b / 16), hexChar (b % 16)]

/-- The UTF-8 encoding of one code point. -/
def utf8Bytes (c : Nat) : List Nat :=
  if c < 128 then [c]
  else if c < 2048 then [192 + c / 64, 128 + c % 64]
  else if c < 65536 then [224 + c / 4096, 128 + (c / 64) % 64, 128 + c % 64]
  else [240 + c / 262144, 128 + (c / 4096) % 64, 128 + (c / 64) % 64, 128 + c % 64]

/-- UTF-8 bytes of a string, as `Nat`s. -/
def strBytes (s : String) : List Nat :=
  (s.data.map fun ch => utf8Bytes ch.toNat).flatten

/-- `md5Hash` (`pkg/services/mexc`): hex-encoded MD5 of a string. -/
def md5Hash (input : String) : String :=
  String.join ((md5Digest (strBytes input)).map byteHex)

/-- `Client.generateSignature` (`pkg/services/mexc`), translated line by
line: `step1 = md5(token ‖ timeStr)`, `step1Sub = step1[7:]`,
`sign = md5(timeStr ‖ body ‖ step1Sub)`. -/
def generateSignature (token : String) (timestamp : Nat) (body : String) : String :=
  let timeStr := toString timestamp
  let step1 := md5Hash (token ++ timeStr)
  let step1Sub := step1.drop 7
  let finalInput := timeStr ++ body ++ step1Sub
  md5Hash finalInput

/-- Modelled from the spec: `sign = MD5(timestamp_ms ‖ body ‖
substring(MD5(auth_token ‖ timestamp_ms), 7, end))`, written directly
from that sentence for comparison with `generateSignature`. -/
def specSignature (token : String) (timestamp : Nat) (body : String) : String :=
  md5Hash (toString timestamp ++ body
    ++ (md5Hash (token ++ toString timestamp)).drop 7)

/-- The exchange host (`baseURL`). -/
def baseURL : String := "https://www.mexc.com"

/-- The `%04d` formatting of the trace-id suffix. -/
def pad4 (n : Nat) : String :=
  let s := toString n
  if s.length >= 4 then s
  else String.mk (List.replicate (4 - s.length) '0') ++ s

/-- The account fields `setHeaders` reads. -/
structure HeaderAccount where
  Token : String
  DeviceID : String
  UserID : String
  UserAgent : String
  deriving Repr, DecidableEq

/-- `Client.setHeaders`, with the two per-request random UUIDs and the
time-based short id exposed as explicit inputs (`uuid.New()` /
`time.Now().UnixNano()` in the source). -/
def setHeaders (acc : HeaderAccount) (timestamp : Nat) (signature : String)
    (traceUUID sentryUUID sentryShort : String) : List (String × String) :=
  [("Accept", "*/*"),
   ("Accept-Language", "en-US,en;q=0.9"),
   ("Content-Type", "application/json"),
   ("Origin", baseURL),
   ("Referer", baseURL ++ "/futures"),
   ("Sec-Fetch-Dest", "empty"),
   ("Sec-Fetch-Mode", "cors"),
   ("Sec-Fetch-Site", "same-origin"),
   ("platform", "H5-web"),
   ("User-Agent",
    if acc.UserAgent != "" then acc.UserAgent
    else "Mozilla/5.0 (Macintosh; Intel Mac OS X 10_15_7) AppleWebKit/537.36"),
   ("Authorization", acc.Token),
   ("mtoken", acc.DeviceID),
   ("device-id", acc.DeviceID),
   ("trochilus-uid", acc.UserID),
   ("language", "en-US"),
   ("X-Language", "en-US"),
   ("country-code", "DE"),
   ("timezone-login", "UTC+02:00")]
  ++ (if signature != "" then
        [("x-mxc-sign", signature), ("x-mxc-nonce", toString timestamp)]
      else [])
  ++ [("trochilus-trace-id", traceUUID ++ "-" ++ pad4 (timestamp % 10000)),
      ("baggage", "sentry-environment=production,sentry-release=v5.25.11"),
      ("sentry-trace", sentryUUID ++ "-" ++ sentryShort ++ "-0")]

/-! ## Helper lemmas about the fan-out and `saveTrade` -/

/-- Invariant of the fan-out merge fold: the total is untouched, each
merged result bumps exactly one of the two tallies, and appends exactly
one row. -/
theorem mergeFold_spec (fn : Account → AccountResult) (slaves : List Account)
    (r : ExecutionResult) :
    (slaves.foldl (fun r a => mergeResult r (fn a)) r).TotalCount = r.TotalCount ∧
    (slaves.foldl (fun r a => mergeResult r (fn a)) r).SuccessCount
      + (slaves.foldl (fun r a => mergeResult r (fn a)) r).FailedCount
      = r.SuccessCount + r.FailedCount + slaves.length ∧
    (slaves.foldl (fun r a => mergeResult r (fn a)) r).Results.length
      = r.Results.length + slaves.length := by
  induction slaves generalizing r with
  | nil => simp
  | cons a rest ih =>
    obtain ⟨h1, h2, h3⟩ := ih (mergeResult r (fn a))
    simp only [List.foldl_cons]
    refine ⟨?_, ?_, ?_⟩
    · simpa [mergeResult] using h1
    · by_cases hs : (fn a).Success <;>
        simp [mergeResult, hs] at h2 ⊢ <;> omega
    · simp [mergeResult] at h3 ⊢ <;> omega

/-- `Engine.execute` produces `TotalCount = N`. -/
theorem runExecute_total (slaves : List Account) (fn : Account → AccountResult) :
    (runExecute slaves fn).TotalCount = slaves.length :=
  (mergeFold_spec fn slaves _).1

/-- `Engine.execute` produces `successes + failures = N`. -/
theorem runExecute_counts (slaves : List Account) (fn : Account → AccountResult) :
    (runExecute slaves fn).SuccessCount + (runExecute slaves fn).FailedCount
      = slaves.length := by
  have h := (mergeFold_spec fn slaves
    { TotalCount := slaves.length, SuccessCount := 0, FailedCount := 0, Results := [] }).2.1
  simpa [runExecute] using h

/-- `Engine.execute` produces one `AccountResult` per slave. -/
theorem runExecute_results_length (slaves : List Account) (fn : Account → AccountResult) :
    (runExecute slaves fn).Results.length = slaves.length := by
  have h := (mergeFold_spec fn slaves
    { TotalCount := slaves.length, SuccessCount := 0, FailedCount := 0, Results := [] }).2.2
  simpa [runExecute] using h

/-- When every `AddTradeDetail` call succeeds, the detail loop reports
no error and appends exactly one row per result. -/
theorem writeDetails_noErr (o : OracleStore) (tradeID : Nat)
    (rs : List AccountResult) (st : Store) (i : Nat)
    (h : ∀ j, o.detailErr j = none) :
    writeDetails o tradeID st i rs
      = (none, { st with details := st.details ++ rs.map (mkDetail tradeID) }) := by
  induction rs generalizing st i with
  | nil => simp [writeDetails]
  | cons r rs ih =>
    cases rs with
    | nil => simp [writeDetails, h i, Store.addDetail]
    | cons r2 rs2 =>
      have hstep : writeDetails o tradeID st i (r :: r2 :: rs2)
          = writeDetails o tradeID (st.addDetail (mkDetail tradeID r)) (i + 1)
              (r2 :: rs2) := by
        simp [writeDetails, h i]
      rw [hstep, ih]
      simp [Store.addDetail]

/-- The error the detail loop reports is exactly the outcome of the last
`AddTradeDetail` call. -/
theorem writeDetails_last_error (o : OracleStore) (tradeID : Nat)
    (rs : List AccountResult) (st : Store) (i : Nat) (h : rs ≠ []) :
    (writeDetails o tradeID st i rs).1 = o.detailErr (i + rs.length - 1) := by
  induction rs generalizing st i with
  | nil => exact absurd rfl h
  | cons r rs ih =>
    cases rs with
    | nil =>
      simp only [writeDetails, List.length_cons, List.length_nil]
      cases hc : o.detailErr i <;> simp [hc]
    | cons r2 rs2 =>
      have := ih ((match o.detailErr i with
        | some e => ((some e : Option String), st)
        | none => (none, st.addDetail (mkDetail tradeID r))).2) (i + 1)
        (by simp)
      simp only [writeDetails] at this ⊢
      rw [this]
      congr 1
      simp [List.length_cons]
      omega

/-- The detail loop touches only the `details` component of the store. -/
theorem writeDetails_frame (o : OracleStore) (tradeID : Nat)
    (rs : List AccountResult) (st : Store) (i : Nat) :
    (writeDetails o tradeID st i rs).2.trades = st.trades ∧
    (writeDetails o tradeID st i rs).2.logs = st.logs ∧
    (writeDetails o tradeID st i rs).2.cache = st.cache ∧
    (writeDetails o tradeID st i rs).2.nextID = st.nextID := by
  induction rs generalizing st i with
  | nil => simp [writeDetails]
  | cons r rs ih =>
    cases rs with
    | nil =>
      simp only [writeDetails]
      cases o.detailErr i <;> simp [Store.addDetail]
    | cons r2 rs2 =>
      have h := ih ((match o.detailErr i with
        | some e => ((some e : Option String), st)
        | none => (none, st.addDetail (mkDetail tradeID r))).2) (i + 1)
      simp only [writeDetails] at h ⊢
      cases hc : o.detailErr i <;> simp [hc, Store.addDetail] at h ⊢ <;> exact h

/-- With no storage failures, `saveTrade` succeeds and its effect on the
store is: the trade row appended with the derived status stamped on it
(when trade ids are well-formed, i.e. strictly below `nextID`), one
detail row per slave result, and one activity-log row. -/
theorem saveTrade_happy (st : Store) (record : Trade) (result : ExecutionResult)
    (hwf : ∀ p ∈ st.trades, p.1 < st.nextID) :
    saveTrade happyStore st record result =
      (none,
       { trades := st.trades ++
           [(st.nextID, { record with Status := tradeStatus result, Error := "" })]
         details := st.details ++ result.Results.map (mkDetail st.nextID)
         logs := st.logs ++ [mkTradeLog "info" record result]
         cache := st.cache
         nextID := st.nextID + 1 }) := by
  have hmap : ∀ p ∈ st.trades, (if p.1 == st.nextID then
      (p.1, { p.2 with Status := tradeStatus result, Error := "" }) else p) = p := by
    intro p hp
    have hlt := hwf p hp
    have hne : (p.1 == st.nextID) = false := by
      simp only [beq_eq_false_iff_ne, ne_eq]
      omega
    simp [hne]
  simp only [saveTrade, happyStore, Store.addTrade]
  rw [writeDetails_noErr _ _ _ _ _ (fun _ => rfl)]
  simp only [saveLog, Store.updateStatus, Store.addLog, Prod.mk.injEq, Store.mk.injEq,
    List.map_append, List.map_cons, List.map_nil]
  rw [List.map_congr_left hmap]
  simp

/-- `saveStopOrders` touches only the cache. -/
theorem saveStopOrders_frame (st : Store) (batch : List (String × String)) :
    (st.saveStopOrders batch).trades = st.trades ∧
    (st.saveStopOrders batch).details = st.details ∧
    (st.saveStopOrders batch).logs = st.logs ∧
    (st.saveStopOrders batch).nextID = st.nextID := by
  simp [Store.saveStopOrders]

/-- With both account-store reads succeeding and a failure-free storage
oracle, every engine action runs the fan-out over the slaves and writes
exactly one trade row, one detail row per slave, and one log row. -/
theorem engineAction_happy (u : UserStore) (st : Store)
    (fn : Account → AccountResult) (record : Trade) (m : Account)
    (slaves : List Account) (hm : u.master = .ok m)
    (hs : u.slaves = .ok slaves)
    (hwf : ∀ p ∈ st.trades, p.1 < st.nextID) :
    engineAction happyStore u st fn record =
      (.ok (runExecute slaves fn),
       { trades := st.trades ++
           [(st.nextID,
             { record with Status := tradeStatus (runExecute slaves fn), Error := "" })]
         details := st.details ++ (runExecute slaves fn).Results.map (mkDetail st.nextID)
         logs := st.logs ++ [mkTradeLog "info" record (runExecute slaves fn)]
         cache := st.cache
         nextID := st.nextID + 1 }) := by
  simp only [engineAction, engineExecute, getSlaves, hm, hs]
  rw [saveTrade_happy st record _ hwf]

/-- The symbol resolution of `CancelStopOrder` touches at most the
cache. -/
theorem cancelResolveSymbols_frame (ctx : EngineCtx) (st : Store) (ids : List Nat) :
    (cancelResolveSymbols ctx st ids).2.trades = st.trades ∧
    (cancelResolveSymbols ctx st ids).2.details = st.details ∧
    (cancelResolveSymbols ctx st ids).2.logs = st.logs ∧
    (cancelResolveSymbols ctx st ids).2.nextID = st.nextID := by
  unfold cancelResolveSymbols
  rcases hm2 : ctx.u.master with e | m <;> rcases ho : ctx.masterOrders with e2 | os <;>
    simp only [hm2, ho] <;> split_ifs <;> simp [Store.saveStopOrders]

/-- The symbol resolution of `ChangePlanPrice` touches at most the
cache. -/
theorem resolvePlanSymbol_frame (ctx : EngineCtx) (st : Store)
    (req : ChangePlanPriceRequest) :
    (resolvePlanSymbol ctx st req).2.trades = st.trades ∧
    (resolvePlanSymbol ctx st req).2.details = st.details ∧
    (resolvePlanSymbol ctx st req).2.logs = st.logs ∧
    (resolvePlanSymbol ctx st req).2.nextID = st.nextID := by
  unfold resolvePlanSymbol
  rcases hm2 : ctx.u.master with e | m <;> rcases ho : ctx.masterOrders with e2 | os <;>
    simp only [hm2, ho] <;> split_ifs <;> simp [Store.saveStopOrders]

/-- With both account-store reads succeeding, the per-symbol errgroup of
`CancelStopOrder` succeeds and tallies `K · N` task results for `K`
symbols and `N` slaves. -/
theorem cancelFanout_ok (ctx : EngineCtx) (m : Account) (slaves : List Account)
    (hm : ctx.u.master = .ok m) (hs : ctx.u.slaves = .ok slaves)
    (syms : List String) :
    ∃ r, cancelFanout ctx syms = .ok r ∧
      r.SuccessCount + r.FailedCount = syms.length * slaves.length ∧
      r.Results.length = syms.length * slaves.length ∧
      r.TotalCount = syms.length * slaves.length := by
  induction syms with
  | nil =>
    exact ⟨emptyResult, rfl, by simp [emptyResult], by simp [emptyResult],
      by simp [emptyResult]⟩
  | cons s rest ih =>
    obtain ⟨r, hr, hc, hl, ht⟩ := ih
    refine ⟨mergeExec
      (runExecute slaves fun acc =>
        (processCancelStopOrder ctx.dryRun (ctx.cenv acc) acc s).1) r, ?_, ?_, ?_, ?_⟩
    · simp only [cancelFanout, engineExecute, getSlaves, hm, hs, hr]
    · have hcnt := runExecute_counts slaves
        (fun acc => (processCancelStopOrder ctx.dryRun (ctx.cenv acc) acc s).1)
      simp only [mergeExec, List.length_cons, Nat.succ_mul]
      omega
    · have hlen := runExecute_results_length slaves
        (fun acc => (processCancelStopOrder ctx.dryRun (ctx.cenv acc) acc s).1)
      simp only [mergeExec, List.length_append, List.length_cons, Nat.succ_mul]
      omega
    · have htot := runExecute_total slaves
        (fun acc => (processCancelStopOrder ctx.dryRun (ctx.cenv acc) acc s).1)
      simp only [mergeExec, List.length_cons, Nat.succ_mul]
      omega

/-! ## Concrete example data for witnesses and counterexamples -/

/-- A single enabled slave account. -/
def exSlave : Account := ⟨1, "slave1"⟩

/-- A master account. -/
def exMaster : Account := ⟨9, "master"⟩

/-- A REST oracle where every call succeeds and the slave has no open
stop orders or positions. -/
def exClientEnv : ClientEnv :=
  { leverage := .ok 10, placeOrder := .ok "oid77", positions := .ok [],
    closePostErr := fun _ => none, stopOrders := .ok [], planOrderErr := none,
    changePlanErr := none, cancelErr := none, changeLeverageErr := none }

/-- An empty store (next trade id 1). -/
def exStore0 : Store := ⟨[], [], [], [], 1⟩

/-- Account store reads: master present, one enabled slave. -/
def exUserStore : UserStore := ⟨.ok exMaster, .ok [exSlave]⟩

/-- A symbol cache holding entries for stop-order ids 7 and 8. -/
def exCache : String → Option String := fun oid =>
  if oid == "7" then some "A_USDT"
  else if oid == "8" then some "B_USDT" else none

/-- An engine context with a failure-free storage oracle, live mode, one
slave, and the two-entry symbol cache. -/
def exCtx : EngineCtx :=
  { o := happyStore, u := exUserStore, dryRun := false,
    cenv := fun _ => exClientEnv, cache := exCache,
    masterOrders := .ok [], userID := 1 }

/-! ## Claim C1 -/

/-- C1, counterexample.  The claim states that every completed engine
action for a user with `N` enabled slaves writes exactly `N` trade
details and tallies `successes + failures = N`, naming `CancelStopOrder`
among the actions.  Here a user with `N = 1` enabled slave completes
`CancelStopOrder([7, 8])` whose two ids resolve (from the cache) to two
symbols, and the engine runs one full fan-out per symbol: 2 detail rows
are written and `successes + failures = 2 ≠ 1`. -/
theorem C1_counterexample :
    exCtx.u.slaves = .ok [exSlave] ∧
    (EngineCancelStopOrder exCtx exStore0 [7, 8]).1 =
      .ok { TotalCount := 2, SuccessCount := 2, FailedCount := 0,
            Results := [⟨1, "slave1", true, "", "", 0⟩,
                        ⟨1, "slave1", true, "", "", 0⟩] } ∧
    (EngineCancelStopOrder exCtx exStore0 [7, 8]).2.details.length = 2 ∧
    (EngineCancelStopOrder exCtx exStore0 [7, 8]).2.trades.length = 1 := by
  exact ⟨rfl, by rfl, by decide, by decide⟩

/-- C1 (amended): for every engine action that completes under a
failure-free storage oracle, for a user with `N` enabled slaves: exactly
one trade row is written in every case; `OpenPosition`, `ClosePosition`,
`PlacePlanOrder`, `ChangeLeverage`, `CancelStopOrderBySymbol` and
`ChangePlanPrice` write exactly `N` trade-detail rows with
`successes + failures = N`; `CancelStopOrder` runs one fan-out per
resolved symbol, and with `K` resolved symbols writes exactly `K · N`
detail rows with `successes + failures = K · N`. -/
theorem C1_fanout_completeness (ctx : EngineCtx) (st : Store) (m : Account)
    (slaves : List Account) (ho : ctx.o = happyStore)
    (hm : ctx.u.master = .ok m) (hs : ctx.u.slaves = .ok slaves)
    (hwf : ∀ p ∈ st.trades, p.1 < st.nextID)
    (reqO : OpenPositionRequest) (reqC : ClosePositionRequest)
    (reqP : PlacePlanOrderRequest) (reqL : ChangeLeverageRequest)
    (sym : String) (reqCP : ChangePlanPriceRequest) (ids : List Nat) :
    (∀ r st2, EngineOpenPosition ctx st reqO = (.ok r, st2) →
      st2.trades.length = st.trades.length + 1 ∧
      st2.details.length = st.details.length + slaves.length ∧
      r.SuccessCount + r.FailedCount = slaves.length) ∧
    (∀ r st2, EngineClosePosition ctx st reqC = (.ok r, st2) →
      st2.trades.length = st.trades.length + 1 ∧
      st2.details.length = st.details.length + slaves.length ∧
      r.SuccessCount + r.FailedCount = slaves.length) ∧
    (∀ r st2, EnginePlacePlanOrder ctx st reqP = (.ok r, st2) →
      st2.trades.length = st.trades.length + 1 ∧
      st2.details.length = st.details.length + slaves.length ∧
      r.SuccessCount + r.FailedCount = slaves.length) ∧
    (∀ r st2, EngineChangeLeverage ctx st reqL = (.ok r, st2) →
      st2.trades.length = st.trades.length + 1 ∧
      st2.details.length = st.details.length + slaves.length ∧
      r.SuccessCount + r.FailedCount = slaves.length) ∧
    (∀ r st2, EngineCancelStopOrderBySymbol ctx st sym = (.ok r, st2) →
      st2.trades.length = st.trades.length + 1 ∧
      st2.details.length = st.details.length + slaves.length ∧
      r.SuccessCount + r.FailedCount = slaves.length) ∧
    (∀ r st2, EngineChangePlanPrice ctx st reqCP = (.ok r, st2) →
      st2.trades.length = st.trades.length + 1 ∧
      st2.details.length = st.details.length + slaves.length ∧
      r.SuccessCount + r.FailedCount = slaves.length) ∧
    (∀ r st2 symbols st1, cancelResolveSymbols ctx st ids = (.ok symbols, st1) →
      EngineCancelStopOrder ctx st ids = (.ok r, st2) →
      st2.trades.length = st.trades.length + 1 ∧
      st2.details.length = st.details.length + symbols.length * slaves.length ∧
      r.SuccessCount + r.FailedCount = symbols.length * slaves.length) := by
  have single : ∀ (fn : Account → AccountResult) (record : Trade),
      ∀ r st2, engineAction ctx.o ctx.u st fn record = (.ok r, st2) →
        st2.trades.length = st.trades.length + 1 ∧
        st2.details.length = st.details.length + slaves.length ∧
        r.SuccessCount + r.FailedCount = slaves.length := by
    intro fn record r st2 heq
    rw [ho, engineAction_happy ctx.u st fn record m slaves hm hs hwf,
      Prod.mk.injEq] at heq
    obtain ⟨hr, hst⟩ := heq
    rw [Except.ok.injEq] at hr
    subst hr
    subst hst
    refine ⟨by simp, ?_, runExecute_counts slaves fn⟩
    simp [runExecute_results_length slaves fn]
  refine ⟨single _ _, single _ _, single _ _, single _ _, single _ _, ?_, ?_⟩
  · intro r st2 heq
    unfold EngineChangePlanPrice at heq
    rcases hres : resolvePlanSymbol ctx st reqCP with ⟨res, st1⟩
    rw [hres] at heq
    obtain ⟨hft, hfd, hfl, hfn⟩ := resolvePlanSymbol_frame ctx st reqCP
    rw [hres] at hft hfd hfn
    dsimp only at hft hfd hfn
    cases res with
    | error e => simp at heq
    | ok symbol =>
      simp only at heq
      have hwf1 : ∀ p ∈ st1.trades, p.1 < st1.nextID := by
        rw [hft, hfn]; exact hwf
      rw [ho, engineAction_happy ctx.u st1 _ _ m slaves hm hs hwf1,
        Prod.mk.injEq] at heq
      obtain ⟨hr, hst⟩ := heq
      rw [Except.ok.injEq] at hr
      subst hr
      subst hst
      refine ⟨by simp [hft], ?_, runExecute_counts slaves _⟩
      simp [hfd, runExecute_results_length slaves _]
  · intro r st2 symbols st1 hres heq
    unfold EngineCancelStopOrder at heq
    rw [hres] at heq
    obtain ⟨hft, hfd, hfl, hfn⟩ := cancelResolveSymbols_frame ctx st ids
    rw [hres] at hft hfd hfn
    dsimp only at hft hfd hfn
    by_cases hz : symbols.length == 0
    · simp [hz] at heq
    · rw [Bool.not_eq_true] at hz
      simp only [hz, Bool.false_eq_true, if_false] at heq
      obtain ⟨fr, hfr, hcnt, hlen, htot⟩ :=
        cancelFanout_ok ctx m slaves hm hs symbols
      rw [hfr] at heq
      simp only at heq
      have hwf1 : ∀ p ∈ st1.trades, p.1 < st1.nextID := by
        rw [hft, hfn]; exact hwf
      rw [ho, saveTrade_happy st1 _ fr hwf1] at heq
      simp only [Prod.mk.injEq] at heq
      obtain ⟨hr, hst⟩ := heq
      rw [Except.ok.injEq] at hr
      subst hr
      subst hst
      refine ⟨by simp [hft], ?_, hcnt⟩
      simp [hfd, hlen]

/-- Example open request. -/
def exReqO : OpenPositionRequest := ⟨"BTC_USDT", 1, 100, 20, 0⟩

/-- Example close request. -/
def exReqC : ClosePositionRequest := ⟨"BTC_USDT", 4, 0, 0⟩

/-- Example plan-order request. -/
def exReqP : PlacePlanOrderRequest := ⟨"BTC_USDT", 100, 200, 1, 1⟩

/-- Example leverage request. -/
def exReqL : ChangeLeverageRequest := ⟨"BTC_USDT", 10, 1, 1⟩

/-- Example change-plan-price request (id 7 resolves via the cache). -/
def exReqCP : ChangePlanPriceRequest := ⟨7, "", 150, 1, 1, 0, 0⟩

/-- C1, witness: the amended fan-out completeness theorem applied to a
concrete context with one enabled slave. -/
theorem C1_fanout_completeness_witness :
    exCtx.o = happyStore ∧ exCtx.u.master = .ok exMaster ∧
    exCtx.u.slaves = .ok [exSlave] ∧
    ((∀ r st2, EngineOpenPosition exCtx exStore0 exReqO = (.ok r, st2) →
      st2.trades.length = 0 + 1 ∧ st2.details.length = 0 + 1 ∧
      r.SuccessCount + r.FailedCount = 1) ∧
    (∀ r st2, EngineClosePosition exCtx exStore0 exReqC = (.ok r, st2) →
      st2.trades.length = 0 + 1 ∧ st2.details.length = 0 + 1 ∧
      r.SuccessCount + r.FailedCount = 1) ∧
    (∀ r st2, EnginePlacePlanOrder exCtx exStore0 exReqP = (.ok r, st2) →
      st2.trades.length = 0 + 1 ∧ st2.details.length = 0 + 1 ∧
      r.SuccessCount + r.FailedCount = 1) ∧
    (∀ r st2, EngineChangeLeverage exCtx exStore0 exReqL = (.ok r, st2) →
      st2.trades.length = 0 + 1 ∧ st2.details.length = 0 + 1 ∧
      r.SuccessCount + r.FailedCount = 1) ∧
    (∀ r st2, EngineCancelStopOrderBySymbol exCtx exStore0 "SOL_USDT" = (.ok r, st2) →
      st2.trades.length = 0 + 1 ∧ st2.details.length = 0 + 1 ∧
      r.SuccessCount + r.FailedCount = 1) ∧
    (∀ r st2, EngineChangePlanPrice exCtx exStore0 exReqCP = (.ok r, st2) →
      st2.trades.length = 0 + 1 ∧ st2.details.length = 0 + 1 ∧
      r.SuccessCount + r.FailedCount = 1) ∧
    (∀ r st2 symbols st1, cancelResolveSymbols exCtx exStore0 [7] = (.ok symbols, st1) →
      EngineCancelStopOrder exCtx exStore0 [7] = (.ok r, st2) →
      st2.trades.length = 0 + 1 ∧
      st2.details.length = 0 + symbols.length * 1 ∧
      r.SuccessCount + r.FailedCount = symbols.length * 1)) :=
  ⟨rfl, rfl, rfl,
   C1_fanout_completeness exCtx exStore0 exMaster [exSlave] rfl rfl rfl
     (by simp [exStore0]) exReqO exReqC exReqP exReqL "SOL_USDT" exReqCP [7]⟩

/-! ## Claim C2 -/

/-- C2: for every trade saved after a fan-out (whose tallies satisfy the
fan-out invariant `successes + failures = total`), the row stored by
`saveTrade` carries the derived status, and that status is `completed`
iff there are zero failures, `partial` iff there is at least one success
and at least one failure, and `failed` iff there are zero successes and
a positive total. -/
theorem C2_status_derivation (st : Store) (record : Trade) (r : ExecutionResult)
    (hinv : r.SuccessCount + r.FailedCount = r.TotalCount)
    (hwf : ∀ p ∈ st.trades, p.1 < st.nextID) :
    ((st.nextID, { record with Status := tradeStatus r, Error := "" })
      ∈ (saveTrade happyStore st record r).2.trades) ∧
    (tradeStatus r = "completed" ↔ r.FailedCount = 0) ∧
    (tradeStatus r = "partial" ↔ 0 < r.SuccessCount ∧ 0 < r.FailedCount) ∧
    (tradeStatus r = "failed" ↔ r.SuccessCount = 0 ∧ 0 < r.TotalCount) := by
  have hff : (r.IsFullFailure = true) ↔ (r.SuccessCount = 0 ∧ 0 < r.TotalCount) := by
    simp [ExecutionResult.IsFullFailure]
  have hps : (r.IsPartialSuccess = true) ↔ (0 < r.SuccessCount ∧ 0 < r.FailedCount) := by
    simp [ExecutionResult.IsPartialSuccess]
  refine ⟨?_, ?_, ?_, ?_⟩
  · rw [saveTrade_happy st record r hwf]
    simp
  · unfold tradeStatus
    split_ifs with h1 h2
    · rw [hff] at h1
      exact ⟨fun hc => absurd hc (by decide), fun hF => False.elim (by omega)⟩
    · rw [hps] at h2
      exact ⟨fun hc => absurd hc (by decide), fun hF => False.elim (by omega)⟩
    · rw [hff] at h1
      rw [hps] at h2
      exact ⟨fun _ => by omega, fun _ => rfl⟩
  · unfold tradeStatus
    split_ifs with h1 h2
    · rw [hff] at h1
      exact ⟨fun hc => absurd hc (by decide), fun hF => False.elim (by omega)⟩
    · rw [hps] at h2
      exact ⟨fun _ => h2, fun _ => rfl⟩
    · rw [hff] at h1
      rw [hps] at h2
      exact ⟨fun hc => absurd hc (by decide), fun hF => False.elim (by omega)⟩
  · unfold tradeStatus
    split_ifs with h1 h2
    · rw [hff] at h1
      exact ⟨fun _ => h1, fun _ => rfl⟩
    · rw [hps] at h2
      exact ⟨fun hc => absurd hc (by decide), fun hF => False.elim (by omega)⟩
    · rw [hff] at h1
      rw [hps] at h2
      exact ⟨fun hc => absurd hc (by decide), fun hF => False.elim (by omega)⟩

/-- Example trade record. -/
def exTradeRec : Trade := ⟨1, "BTC_USDT", 1, 100, 20, "open_position", "", ""⟩

/-- C2, witness: a 2-success / 1-failure fan-out over three slaves is
stored as `partial`. -/
theorem C2_status_derivation_witness :
    ((2 : Nat) + 1 = 3) ∧ (∀ p ∈ exStore0.trades, p.1 < exStore0.nextID) ∧
    (((1, { exTradeRec with Status := tradeStatus ⟨3, 2, 1, []⟩, Error := "" })
       ∈ (saveTrade happyStore exStore0 exTradeRec ⟨3, 2, 1, []⟩).2.trades) ∧
     (tradeStatus ⟨3, 2, 1, []⟩ = "completed" ↔ (1 : Nat) = 0) ∧
     (tradeStatus ⟨3, 2, 1, []⟩ = "partial" ↔ (0 : Nat) < 2 ∧ (0 : Nat) < 1) ∧
     (tradeStatus ⟨3, 2, 1, []⟩ = "failed" ↔ (2 : Nat) = 0 ∧ (0 : Nat) < 3)) :=
  ⟨rfl, by simp [exStore0],
   C2_status_derivation exStore0 exTradeRec ⟨3, 2, 1, []⟩ rfl (by simp [exStore0])⟩

/-! ## Claim C3 -/

/-- Looking a reference up in a heap whose entry for that reference was
deactivated yields an inactive session. -/
theorem lookup_deactivated (ref : Nat) (l : List (Nat × SessionState)) :
    ∀ s, List.lookup ref (l.map fun p =>
        if p.1 == ref then (p.1, { p.2 with active := false }) else p) = some s →
      s.active = false := by
  induction l with
  | nil => intro s h; simp [List.lookup] at h
  | cons p ps ih =>
    intro s h
    rw [List.map_cons] at h
    by_cases hp : p.1 = ref
    · rw [if_pos (show (p.1 == ref) = true from beq_iff_eq.mpr hp)] at h
      have hb : (ref == p.1) = true := beq_iff_eq.mpr hp.symm
      simp only [List.lookup, hb] at h
      injection h with h2
      rw [← h2]
    · rw [if_neg (show ¬((p.1 == ref) = true) from by simp [hp])] at h
      have hb : (ref == p.1) = false := by
        rw [beq_eq_false_iff_ne]
        exact fun hc => hp hc.symm
      simp only [List.lookup, hb] at h
      exact ih s h

/-- C3: once `Manager.StopSession(user, mode)` has returned for a user
whose session handle is `ref`, every one of the seven operations invoked
through that handle fails with the `session is not active` error and
leaves the world untouched, any sequence of such invocations leaves the
world untouched, and the stop itself wrote no trade detail: no
`TradeDetail` is ever written via the session after `Stop` returned. -/
theorem C3_session_gate (ctx : EngineCtx) (w w2 : World) (userID : Nat)
    (name : String) (ref : Nat)
    (href : w.mgr.lookup userID = some ref)
    (hstop : stopSession w userID name = .ok w2) :
    (∀ op : SessionOp,
      sessionRun ctx w2 ref op = (.error "session is not active", w2)) ∧
    (∀ ops : List SessionOp, sessionRunAll ctx ref w2 ops = w2) ∧
    w2.store.details = w.store.details := by
  have hgen : ∀ w3 : World,
      (∀ s, List.lookup ref w3.heap = some s → s.active = false) →
      (∀ op : SessionOp,
        sessionRun ctx w3 ref op = (.error "session is not active", w3)) ∧
      (∀ ops : List SessionOp, sessionRunAll ctx ref w3 ops = w3) := by
    intro w3 hIn
    have hstep : ∀ op : SessionOp,
        sessionRun ctx w3 ref op = (.error "session is not active", w3) := by
      intro op
      unfold sessionRun
      cases hlk : List.lookup ref w3.heap with
      | none => rfl
      | some s => simp [hIn s hlk]
    refine ⟨hstep, ?_⟩
    intro ops
    induction ops with
    | nil => rfl
    | cons op ops ih =>
      unfold sessionRunAll
      rw [hstep op]
      exact ih
  unfold stopSession at hstop
  rw [href] at hstop
  simp only [Except.ok.injEq] at hstop
  have hheap : w2.heap = w.heap.map fun p =>
      if p.1 == ref then (p.1, { p.2 with active := false }) else p := by
    rw [← hstop]
  have hdet : w2.store.details = w.store.details := by
    rw [← hstop]
    simp [Store.addLog]
  obtain ⟨h1, h2⟩ := hgen w2 (by
    intro s hs
    rw [hheap] at hs
    exact lookup_deactivated ref w.heap s hs)
  exact ⟨h1, h2, hdet⟩

/-- A world with one active websocket session for user 1 at reference 0. -/
def exWorld : World := ⟨[(0, ⟨1, "websocket", true⟩)], [(1, 0)], exStore0⟩

/-- The world after stopping user 1's session. -/
def exWorld2 : World :=
  ⟨[(0, ⟨1, "websocket", false⟩)], [],
   { exStore0 with logs := [⟨some 1, "info", "copy_trading_stop",
       "Copy trading session stopped (mode: websocket)"⟩] }⟩

/-- C3, witness: the gate theorem applied to the concrete stopped world. -/
theorem C3_session_gate_witness :
    exWorld.mgr.lookup 1 = some 0 ∧
    stopSession exWorld 1 "websocket" = .ok exWorld2 ∧
    ((∀ op : SessionOp,
        sessionRun exCtx exWorld2 0 op = (.error "session is not active", exWorld2)) ∧
     (∀ ops : List SessionOp, sessionRunAll exCtx 0 exWorld2 ops = exWorld2) ∧
     exWorld2.store.details = exWorld.store.details) :=
  ⟨rfl, rfl, C3_session_gate exCtx exWorld exWorld2 1 "websocket" 0 rfl rfl⟩

/-! ## Claim C4 -/

/-- Looking up the freshly inserted key finds the inserted order. -/
theorem pendingLookup_insert_self (t : PendingTable) (e : OrderEvent) :
    pendingLookup (pendingInsert t e) e.OrderID = some e := by
  unfold pendingLookup pendingInsert
  induction t with
  | nil => simp [List.lookup]
  | cons p ps ih =>
    by_cases hp : p.1 = e.OrderID
    · simp only [List.filter_cons]
      rw [show (p.1 != e.OrderID) = false by simp [hp]]
      exact ih
    · simp only [List.filter_cons]
      rw [show (p.1 != e.OrderID) = true by simp [hp]]
      have hb : (e.OrderID == p.1) = false := by
        rw [beq_eq_false_iff_ne]
        exact fun hc => hp hc.symm
      simp only [List.cons_append, List.lookup, hb]
      exact ih

/-- After deleting a key, looking it up misses. -/
theorem pendingLookup_delete_self (t : PendingTable) (oid : String) :
    pendingLookup (pendingDelete t oid) oid = none := by
  unfold pendingLookup pendingDelete
  induction t with
  | nil => simp [List.lookup]
  | cons p ps ih =>
    by_cases hp : p.1 = oid
    · simp only [List.filter_cons]
      rw [show (p.1 != oid) = false by simp [hp]]
      exact ih
    · simp only [List.filter_cons]
      rw [show (p.1 != oid) = true by simp [hp]]
      have hb : (oid == p.1) = false := by
        rw [beq_eq_false_iff_ne]
        exact fun hc => hp hc.symm
      simp only [List.lookup, hb]
      exact ih

/-- C4: for an order event parked in the pending table, a stop-order
event with the same order id that arrives within the 1 s window (i.e.
before the entry's timeout input) removes the pending entry and emits
exactly one combined event carrying the attached stop order; the
subsequent timer firing emits nothing (the timer was cancelled /
defused), so neither partner is additionally emitted on its own; and a
stop-order event with no pending match goes to the separate stop-order
handler, leaving the table unchanged. -/
theorem C4_correlation_window (t : PendingTable) (e : OrderEvent)
    (s : StopOrderEvent)
    (hmatch : s.OrderID = e.OrderID) :
    (wsStep t (.order e)).2 = [] ∧
    (wsStep (wsStep t (.order e)).1 (.stop s)).2
      = [WsOut.toOrder { e with StopOrderEvent := some s }] ∧
    pendingLookup (wsStep (wsStep t (.order e)).1 (.stop s)).1 e.OrderID = none ∧
    (wsStep (wsStep (wsStep t (.order e)).1 (.stop s)).1
      (.timeout e.OrderID)).2 = [] ∧
    (∀ s2 : StopOrderEvent, pendingLookup t s2.OrderID = none →
      wsStep t (.stop s2) = (t, [WsOut.toStop s2])) := by
  refine ⟨rfl, ?_, ?_, ?_, ?_⟩
  · show (wsStep (pendingInsert t e) (.stop s)).2 = _
    dsimp only [wsStep]
    rw [hmatch, pendingLookup_insert_self t e]
  · show pendingLookup (wsStep (pendingInsert t e) (.stop s)).1 e.OrderID = none
    dsimp only [wsStep]
    rw [hmatch, pendingLookup_insert_self t e]
    exact pendingLookup_delete_self (pendingInsert t e) e.OrderID
  · show (wsStep (wsStep (pendingInsert t e) (.stop s)).1 (.timeout e.OrderID)).2 = []
    have h1 : (wsStep (pendingInsert t e) (.stop s)).1
        = pendingDelete (pendingInsert t e) e.OrderID := by
      dsimp only [wsStep]
      rw [hmatch, pendingLookup_insert_self t e]
    rw [h1]
    dsimp only [wsStep]
    rw [pendingLookup_delete_self (pendingInsert t e) e.OrderID]
  · intro s2 hmiss
    dsimp only [wsStep]
    rw [hmiss]

/-- Example order event (open long on ETH, order id X1, no stop yet). -/
def exOrderEvent : OrderEvent := ⟨"X1", "ETH_USDT", 0, 50, 10, 1, 0, none⟩

/-- Example stop-order event for the same order id. -/
def exStopEvent : StopOrderEvent := ⟨"ETH_USDT", "X1", 1, 1, 1800, 0⟩

/-- Example unmatched stop-order event. -/
def exStopEvent2 : StopOrderEvent := ⟨"SOL_USDT", "Z9", 1, 1, 40, 0⟩

/-- C4, witness: the correlation theorem on a concrete empty table with
the order and its attached stop arriving inside the window. -/
theorem C4_correlation_window_witness :
    exStopEvent.OrderID = exOrderEvent.OrderID ∧
    ((wsStep [] (.order exOrderEvent)).2 = [] ∧
     (wsStep (wsStep [] (.order exOrderEvent)).1 (.stop exStopEvent)).2
       = [WsOut.toOrder { exOrderEvent with StopOrderEvent := some exStopEvent }] ∧
     pendingLookup (wsStep (wsStep [] (.order exOrderEvent)).1
       (.stop exStopEvent)).1 exOrderEvent.OrderID = none ∧
     (wsStep (wsStep (wsStep [] (.order exOrderEvent)).1 (.stop exStopEvent)).1
       (.timeout exOrderEvent.OrderID)).2 = [] ∧
     (∀ s2 : StopOrderEvent, pendingLookup [] s2.OrderID = none →
       wsStep [] (.stop s2) = ([], [WsOut.toStop s2]))) :=
  ⟨rfl, C4_correlation_window [] exOrderEvent exStopEvent rfl⟩

/-! ## Claim C5 -/

/-- Example closed-position event (`state = 3`). -/
def exPosEvent : PositionEvent := ⟨5, "BTC_USDT", 0, 1, 3⟩

/-- C5, counterexample.  The claim states every frame on
`push.personal.position` that decodes to a `PositionEvent` is dispatched
to the registered position handler; but in
`pkg/services/websocket/client.go` the body of that channel's case is
commented out, so the frame — here one carrying a decodable closed
position — is routed nowhere. -/
theorem C5_counterexample :
    handleMessage ⟨"push.personal.position", .position exPosEvent⟩ = none := by
  decide

/-- C5 (amended): the websocket client routes `push.personal.position`
frames nowhere (its dispatch is commented out in the source); the
driver's position handler itself, whenever it is invoked with an event,
issues `ClosePosition(symbol)` through the session exactly for events
with `state = 3` and drops all others. -/
theorem C5_position_close (e : PositionEvent) :
    (∀ d : MsgData, handleMessage ⟨"push.personal.position", d⟩ = none) ∧
    (e.State = 3 →
      handlePositionEvent e = some (.closePosition ⟨e.Symbol, 0, 0, 0⟩)) ∧
    (e.State ≠ 3 → handlePositionEvent e = none) := by
  refine ⟨fun d => rfl, ?_, ?_⟩
  · intro h3
    unfold handlePositionEvent fromWebSocketPosition
    simp [h3]
  · intro hn
    unfold handlePositionEvent fromWebSocketPosition
    simp [hn]

/-- C5, witness: the amended theorem at the concrete `state = 3` event. -/
theorem C5_position_close_witness :
    exPosEvent.State = 3 ∧
    ((∀ d : MsgData, handleMessage ⟨"push.personal.position", d⟩ = none) ∧
     (exPosEvent.State = 3 →
       handlePositionEvent exPosEvent = some (.closePosition ⟨"BTC_USDT", 0, 0, 0⟩)) ∧
     (exPosEvent.State ≠ 3 → handlePositionEvent exPosEvent = none)) :=
  ⟨rfl, C5_position_close exPosEvent⟩

/-! ## Claim C6 -/

/-- C6, counterexample.  The claim states that in dry-run the positions
read for `ClosePosition` still executes; but `processClosePosition`
checks the dry-run flag before calling into the adapter, so the dry-run
task issues no request at all, while the live task does read positions. -/
theorem C6_counterexample :
    (processClosePosition true exClientEnv exSlave exReqC).2 = [] ∧
    (processClosePosition true exClientEnv exSlave exReqC).1.Success = true ∧
    (processClosePosition false exClientEnv exSlave exReqC).2
      = [Req.getPositions "BTC_USDT"] := by
  refine ⟨?_, ?_, ?_⟩ <;> decide

/-- C6 (amended): with the dry-run flag set and the reads succeeding,
every slave task issues no POST and returns `success = true` with an
empty `order_id`; the leverage read still executes for `OpenPosition`
and the stop-order read still executes for `ChangePlanPrice` and
`CancelStopOrder`, but `ClosePosition` returns before its positions
read, issuing no request at all. -/
theorem C6_dry_run (env : ClientEnv) (acc : Account)
    (reqO : OpenPositionRequest) (reqC : ClosePositionRequest)
    (reqP : PlacePlanOrderRequest) (reqL : ChangeLeverageRequest)
    (reqCP : ChangePlanPriceRequest) (symbol : String) (lev : Nat)
    (orders : List StopOrder)
    (hlev : env.leverage = .ok lev) (hso : env.stopOrders = .ok orders) :
    (processOpenPosition true env acc reqO
      = ({ baseResult acc with Success := true },
         [Req.getLeverage reqO.Symbol reqO.Side])) ∧
    (processClosePosition true env acc reqC
      = ({ baseResult acc with Success := true }, [])) ∧
    (processPlacePlanOrder true env acc reqP
      = ({ baseResult acc with Success := true }, [])) ∧
    (processChangeLeverage true env acc reqL
      = ({ baseResult acc with Success := true }, [])) ∧
    (processChangePlanPrice true env symbol acc reqCP
      = ({ baseResult acc with Success := true }, [Req.getStopOrders symbol])) ∧
    (processCancelStopOrder true env acc symbol
      = ({ baseResult acc with Success := true }, [Req.getStopOrders symbol])) ∧
    (baseResult acc).OrderID = "" := by
  refine ⟨?_, rfl, rfl, rfl, ?_, ?_, rfl⟩
  · unfold processOpenPosition
    rw [hlev]
    rfl
  · unfold processChangePlanPrice
    rw [hso]
    cases orders <;> rfl
  · unfold processCancelStopOrder
    rw [hso]
    cases orders <;> rfl

/-- C6, witness: the amended dry-run theorem at a concrete slave task
environment whose reads succeed. -/
theorem C6_dry_run_witness :
    exClientEnv.leverage = .ok 10 ∧ exClientEnv.stopOrders = .ok [] ∧
    ((processOpenPosition true exClientEnv exSlave exReqO
       = ({ baseResult exSlave with Success := true },
          [Req.getLeverage "BTC_USDT" 1])) ∧
     (processClosePosition true exClientEnv exSlave exReqC
       = ({ baseResult exSlave with Success := true }, [])) ∧
     (processPlacePlanOrder true exClientEnv exSlave exReqP
       = ({ baseResult exSlave with Success := true }, [])) ∧
     (processChangeLeverage true exClientEnv exSlave exReqL
       = ({ baseResult exSlave with Success := true }, [])) ∧
     (processChangePlanPrice true exClientEnv "BTC_USDT" exSlave exReqCP
       = ({ baseResult exSlave with Success := true },
          [Req.getStopOrders "BTC_USDT"])) ∧
     (processCancelStopOrder true exClientEnv exSlave "BTC_USDT"
       = ({ baseResult exSlave with Success := true },
          [Req.getStopOrders "BTC_USDT"])) ∧
     (baseResult exSlave).OrderID = "") :=
  ⟨rfl, rfl,
   C6_dry_run exClientEnv exSlave exReqO exReqC exReqP exReqL exReqCP
     "BTC_USDT" 10 [] rfl rfl⟩

/-! ## Claim C7 -/

/-- A registry already holding a token for user 1. -/
def exTokens : MirrorTokens := ⟨[("aaaa", ⟨"aaaa", 1, "alice"⟩)]⟩

/-- C7, counterexample.  The claim states that re-issuing a token for a
user who already has one deletes the prior entry before inserting a new
token.  In `getOrCreateTokenLocked` the first loop returns the existing
token immediately, so the call returns the OLD token and the registry is
unchanged: nothing is deleted and the freshly generated token is never
inserted. -/
theorem C7_counterexample :
    (getOrCreateTokenLocked "bbbb" exTokens 1 "alice").1 = "aaaa" ∧
    (getOrCreateTokenLocked "bbbb" exTokens 1 "alice").2 = exTokens ∧
    ("aaaa", (⟨"aaaa", 1, "alice"⟩ : MirrorToken))
      ∈ (getOrCreateTokenLocked "bbbb" exTokens 1 "alice").2.tokens ∧
    ¬ ("bbbb", (⟨"bbbb", 1, "alice"⟩ : MirrorToken))
      ∈ (getOrCreateTokenLocked "bbbb" exTokens 1 "alice").2.tokens := by
  refine ⟨?_, ?_, ?_, ?_⟩ <;> decide

/-- The number of registry entries belonging to one user. -/
def tokensFor (s : MirrorTokens) (userID : Nat) : Nat :=
  s.tokens.countP fun p => p.2.UserID == userID

/-- A delete pass over a list with no entry for the user is a no-op. -/
theorem deleteFirstFor_of_absent (userID : Nat) :
    ∀ l : List (String × MirrorToken),
      (∀ p ∈ l, p.2.UserID ≠ userID) → deleteFirstFor userID l = l := by
  intro l
  induction l with
  | nil => intro _; rfl
  | cons p ps ih =>
    intro h
    unfold deleteFirstFor
    rw [show (p.2.UserID == userID) = false by
      simp [h p (List.mem_cons_self p ps)]]
    simp only [Bool.false_eq_true, if_false]
    rw [ih fun q hq => h q (List.mem_cons_of_mem p hq)]

/-- C7 (amended): if the user already holds a token, re-issuing returns
that token and leaves the registry unchanged (the prior entry is NOT
deleted and no new token is inserted); only when the user holds none is
the fresh token inserted; and in either case at most one token per user
exists afterwards, provided at most one existed before. -/
theorem C7_token_rotation (s : MirrorTokens) (userID : Nat)
    (username fresh : String)
    (hinv : ∀ u, tokensFor s u ≤ 1) :
    (∀ p, s.tokens.find? (fun q => q.2.UserID == userID) = some p →
      getOrCreateTokenLocked fresh s userID username = (p.2.Token, s)) ∧
    (s.tokens.find? (fun q => q.2.UserID == userID) = none →
      getOrCreateTokenLocked fresh s userID username
        = (fresh, ⟨s.tokens ++ [(fresh, ⟨fresh, userID, username⟩)]⟩)) ∧
    (∀ u, tokensFor (getOrCreateTokenLocked fresh s userID username).2 u ≤ 1) := by
  refine ⟨?_, ?_, ?_⟩
  · intro p hp
    unfold getOrCreateTokenLocked
    rw [hp]
  · intro hnone
    have habs : ∀ p ∈ s.tokens, p.2.UserID ≠ userID := by
      intro p hp hc
      have := List.find?_eq_none.mp hnone p hp
      simp [hc] at this
    unfold getOrCreateTokenLocked
    rw [hnone, deleteFirstFor_of_absent userID s.tokens habs]
  · intro u
    cases hf : s.tokens.find? (fun q => q.2.UserID == userID) with
    | some p =>
      unfold getOrCreateTokenLocked
      rw [hf]
      exact hinv u
    | none =>
      have habs : ∀ p ∈ s.tokens, p.2.UserID ≠ userID := by
        intro p hp hc
        have := List.find?_eq_none.mp hf p hp
        simp [hc] at this
      have hzero : s.tokens.countP (fun p => p.2.UserID == userID) = 0 := by
        rw [List.countP_eq_zero]
        intro p hp
        simp [habs p hp]
      unfold getOrCreateTokenLocked
      rw [hf, deleteFirstFor_of_absent userID s.tokens habs]
      unfold tokensFor
      dsimp only
      rw [List.countP_append]
      by_cases hu : userID = u
      · subst hu
        have h1 : List.countP (fun p => p.2.UserID == userID)
            [(fresh, (⟨fresh, userID, username⟩ : MirrorToken))] = 1 := by
          simp [List.countP_cons]
        rw [h1]
        have := hinv userID
        unfold tokensFor at this
        omega
      · have h0 : List.countP (fun p => p.2.UserID == u)
            [(fresh, (⟨fresh, userID, username⟩ : MirrorToken))] = 0 := by
          simp [List.countP_cons, hu]
        rw [h0]
        have := hinv u
        unfold tokensFor at this
        omega

/-- C7, witness: the amended theorem at the one-entry registry. -/
theorem C7_token_rotation_witness :
    (∀ u, tokensFor exTokens u ≤ 1) ∧
    ((∀ p, exTokens.tokens.find? (fun q => q.2.UserID == 1) = some p →
       getOrCreateTokenLocked "bbbb" exTokens 1 "alice" = (p.2.Token, exTokens)) ∧
     (exTokens.tokens.find? (fun q => q.2.UserID == 1) = none →
       getOrCreateTokenLocked "bbbb" exTokens 1 "alice"
         = ("bbbb", ⟨exTokens.tokens ++ [("bbbb", ⟨"bbbb", 1, "alice"⟩)]⟩)) ∧
     (∀ u, tokensFor (getOrCreateTokenLocked "bbbb" exTokens 1 "alice").2 u ≤ 1)) :=
  ⟨fun u => by
     unfold tokensFor exTokens
     simp only [List.countP_cons, List.countP_nil]
     split <;> omega,
   C7_token_rotation exTokens 1 "alice" "bbbb" (fun u => by
     unfold tokensFor exTokens
     simp only [List.countP_cons, List.countP_nil]
     split <;> omega)⟩

/-! ## Claim C8 -/

/-- C8: the signature computed by `generateSignature` is exactly the
spec formula `MD5(ts ‖ body ‖ substring(MD5(token ‖ ts), 7, end))`
(`specSignature` is transcribed from the spec sentence), it is a pure
function of `(token, timestamp, body)`; `setHeaders` carries it in
`x-mxc-sign` with the timestamp in `x-mxc-nonce`; and replaying the same
`(timestamp, signature)` pair yields byte-identical `x-mxc-sign` /
`x-mxc-nonce` headers whatever the per-request random trace ids are. -/
theorem C8_signature (acc : HeaderAccount) (timestamp : Nat) (sig : String)
    (u1 u2 u3 v1 v2 v3 : String) (hsig : sig ≠ "") :
    (∀ token t body, generateSignature token t body = specSignature token t body) ∧
    List.lookup "x-mxc-sign" (setHeaders acc timestamp sig u1 u2 u3) = some sig ∧
    List.lookup "x-mxc-nonce" (setHeaders acc timestamp sig u1 u2 u3)
      = some (toString timestamp) ∧
    List.lookup "x-mxc-sign" (setHeaders acc timestamp sig u1 u2 u3)
      = List.lookup "x-mxc-sign" (setHeaders acc timestamp sig v1 v2 v3) ∧
    List.lookup "x-mxc-nonce" (setHeaders acc timestamp sig u1 u2 u3)
      = List.lookup "x-mxc-nonce" (setHeaders acc timestamp sig v1 v2 v3) := by
  have hb : (sig != "") = true := by
    simpa using hsig
  refine ⟨fun token t body => rfl, ?_, ?_, ?_, ?_⟩ <;>
    (unfold setHeaders; rw [hb]; rfl)

/-- C8, witness: concrete account, timestamp, body and trace ids; the
signature is the concrete MD5 and the signing headers replay
identically. -/
theorem C8_signature_witness :
    ("sig0" : String) ≠ "" ∧
    ((∀ token t body, generateSignature token t body = specSignature token t body) ∧
     List.lookup "x-mxc-sign"
       (setHeaders ⟨"tok", "dev", "uid", ""⟩ 1700000000000 "sig0" "u1" "u2" "u3")
       = some "sig0" ∧
     List.lookup "x-mxc-nonce"
       (setHeaders ⟨"tok", "dev", "uid", ""⟩ 1700000000000 "sig0" "u1" "u2" "u3")
       = some (toString 1700000000000) ∧
     List.lookup "x-mxc-sign"
       (setHeaders ⟨"tok", "dev", "uid", ""⟩ 1700000000000 "sig0" "u1" "u2" "u3")
       = List.lookup "x-mxc-sign"
         (setHeaders ⟨"tok", "dev", "uid", ""⟩ 1700000000000 "sig0" "v1" "v2" "v3") ∧
     List.lookup "x-mxc-nonce"
       (setHeaders ⟨"tok", "dev", "uid", ""⟩ 1700000000000 "sig0" "u1" "u2" "u3")
       = List.lookup "x-mxc-nonce"
         (setHeaders ⟨"tok", "dev", "uid", ""⟩ 1700000000000 "sig0" "v1" "v2" "v3")) :=
  ⟨by decide,
   C8_signature ⟨"tok", "dev", "uid", ""⟩ 1700000000000 "sig0" "u1" "u2" "u3"
     "v1" "v2" "v3" (by decide)⟩

/-- Sanity check of the MD5 implementation against an RFC 1321 test
vector. -/
theorem md5Hash_abc : md5Hash "abc" = "900150983cd24fb0d6963f7d28e17f72" := by
  set_option maxRecDepth 40000 in decide

/-- The concrete signature of a fixed `(token, timestamp, body)` triple
is a fixed 32-hex-character MD5 string. -/
theorem generateSignature_concrete :
    generateSignature "tok" 1700000000000 "body"
      = "a82a1316de846889fabe6ba04fc9d521" := by
  set_option maxRecDepth 100000 in decide

/-! ## Claim C9 -/

/-- A cache pass in which every lookup misses sends every id to the
missing list. -/
theorem cachePass_all_miss (cache : String → Option String)
    (h : ∀ oid, cache oid = none) (l : List String) :
    ∀ acc : List String × List String,
      l.foldl (cacheStep cache) acc = (acc.1, acc.2 ++ l) := by
  induction l with
  | nil => intro acc; simp
  | cons a l ih =>
    intro acc
    simp only [List.foldl_cons, cacheStep, h a]
    rw [ih]
    simp

/-- Collecting symbols of master orders whose ids are not in the missing
list yields nothing. -/
theorem collectSymbols_none (missing : List String) (orders : List StopOrder)
    (h : ∀ o ∈ orders, missing.contains (toString o.Id) = false) :
    ∀ acc : List String,
      orders.foldl (fun acc o =>
        if missing.contains (toString o.Id) then acc ++ [o.Symbol] else acc) acc
      = acc := by
  induction orders with
  | nil => intro acc; rfl
  | cons o os ih =>
    intro acc
    simp only [List.foldl_cons, h o (List.mem_cons_self o os), Bool.false_eq_true,
      if_false]
    exact ih (fun q hq => h q (List.mem_cons_of_mem o hq)) acc

/-- Scanning master orders for an id none of them carries leaves the
symbol empty. -/
theorem scanSymbol_none (id : Nat) (orders : List StopOrder)
    (h : ∀ o ∈ orders, o.Id ≠ id) :
    orders.foldl (fun s o => if o.Id == id then o.Symbol else s) "" = "" := by
  induction orders with
  | nil => rfl
  | cons o os ih =>
    simp only [List.foldl_cons,
      show (o.Id == id) = false by simp [h o (List.mem_cons_self o os)],
      Bool.false_eq_true, if_false]
    exact ih fun q hq => h q (List.mem_cons_of_mem o hq)

/-- C9: when a `ChangePlanPrice` id has no symbol hint, no cache entry
and no match among the master's open stop orders, the action fails with
`stop order N not found`; when no `CancelStopOrder` id resolves to a
symbol the action fails with `order not found`; both fail before any
fan-out, so no trade row, no trade-detail row and no activity-log row is
written (only the symbol cache may be refreshed). -/
theorem C9_unresolved_stop_order (ctx : EngineCtx) (st : Store)
    (req : ChangePlanPriceRequest) (ids : List Nat) (m : Account)
    (orders : List StopOrder)
    (hm : ctx.u.master = .ok m)
    (hmo : ctx.masterOrders = .ok orders)
    (hsym : req.Symbol = "")
    (hcache : ∀ oid, ctx.cache oid = none)
    (hnone : ∀ o ∈ orders, o.Id ≠ req.StopPlanOrderID)
    (hnotin : ∀ o ∈ orders,
      ((ids.map fun i => toString i).contains (toString o.Id)) = false) :
    (EngineChangePlanPrice ctx st req).1
      = .error ("stop order " ++ toString req.StopPlanOrderID ++ " not found") ∧
    (EngineChangePlanPrice ctx st req).2.trades = st.trades ∧
    (EngineChangePlanPrice ctx st req).2.details = st.details ∧
    (EngineChangePlanPrice ctx st req).2.logs = st.logs ∧
    (EngineCancelStopOrder ctx st ids).1 = .error "order not found" ∧
    (EngineCancelStopOrder ctx st ids).2.trades = st.trades ∧
    (EngineCancelStopOrder ctx st ids).2.details = st.details ∧
    (EngineCancelStopOrder ctx st ids).2.logs = st.logs := by
  have hfst1 : (resolvePlanSymbol ctx st req).1
      = .error ("stop order " ++ toString req.StopPlanOrderID ++ " not found") := by
    simp only [resolvePlanSymbol]
    rw [hsym, hm, hmo, hcache (toString req.StopPlanOrderID)]
    dsimp only
    rw [scanSymbol_none req.StopPlanOrderID orders hnone]
    simp
  have hpair : resolvePlanSymbol ctx st req
      = (.error ("stop order " ++ toString req.StopPlanOrderID ++ " not found"),
         (resolvePlanSymbol ctx st req).2) :=
    Prod.ext_iff.mpr ⟨hfst1, rfl⟩
  have hfr := resolvePlanSymbol_frame ctx st req
  have hcp : EngineChangePlanPrice ctx st req
      = (.error ("stop order " ++ toString req.StopPlanOrderID ++ " not found"),
         (resolvePlanSymbol ctx st req).2) := by
    unfold EngineChangePlanPrice
    rw [hpair]
  have hcfst : (cancelResolveSymbols ctx st ids).1 = .ok ([] : List String) := by
    simp only [cancelResolveSymbols]
    rw [cachePass_all_miss ctx.cache hcache (ids.map fun i => toString i) ([], [])]
    dsimp only
    by_cases hlen : (([] : List String) ++ ids.map fun i => toString i).length > 0
    · rw [if_pos hlen, hm, hmo]
      dsimp only
      rw [collectSymbols_none _ orders (by simpa using hnotin) []]
    · rw [if_neg hlen]
  have hcpair : cancelResolveSymbols ctx st ids
      = (.ok [], (cancelResolveSymbols ctx st ids).2) :=
    Prod.ext_iff.mpr ⟨hcfst, rfl⟩
  have hcfr := cancelResolveSymbols_frame ctx st ids
  have hcan : EngineCancelStopOrder ctx st ids
      = (.error "order not found", (cancelResolveSymbols ctx st ids).2) := by
    unfold EngineCancelStopOrder
    rw [hcpair]
    rfl
  rw [hcp, hcan]
  exact ⟨rfl, hfr.1, hfr.2.1, hfr.2.2.1, rfl, hcfr.1, hcfr.2.1, hcfr.2.2.1⟩

/-- An engine context in which nothing resolves: empty cache, master
with no open stop orders. -/
def exCtx9 : EngineCtx :=
  { o := happyStore, u := exUserStore, dryRun := false,
    cenv := fun _ => exClientEnv, cache := fun _ => none,
    masterOrders := .ok [], userID := 1 }

/-- Example change-plan-price request whose id 42 resolves nowhere. -/
def exReqCP9 : ChangePlanPriceRequest := ⟨42, "", 150, 1, 1, 0, 0⟩

/-- C9, witness: the unresolved-id theorem at the concrete context. -/
theorem C9_unresolved_stop_order_witness :
    exCtx9.u.master = .ok exMaster ∧ exCtx9.masterOrders = .ok [] ∧
    ((EngineChangePlanPrice exCtx9 exStore0 exReqCP9).1
       = .error ("stop order " ++ toString 42 ++ " not found") ∧
     (EngineChangePlanPrice exCtx9 exStore0 exReqCP9).2.trades = exStore0.trades ∧
     (EngineChangePlanPrice exCtx9 exStore0 exReqCP9).2.details = exStore0.details ∧
     (EngineChangePlanPrice exCtx9 exStore0 exReqCP9).2.logs = exStore0.logs ∧
     (EngineCancelStopOrder exCtx9 exStore0 [888]).1 = .error "order not found" ∧
     (EngineCancelStopOrder exCtx9 exStore0 [888]).2.trades = exStore0.trades ∧
     (EngineCancelStopOrder exCtx9 exStore0 [888]).2.details = exStore0.details ∧
     (EngineCancelStopOrder exCtx9 exStore0 [888]).2.logs = exStore0.logs) :=
  ⟨rfl, rfl,
   C9_unresolved_stop_order exCtx9 exStore0 exReqCP9 [888] exMaster [] rfl rfl rfl
     (fun _ => rfl) (by simp) (by simp)⟩

/-! ## Claim C10 -/

/-- The detail loop appends at most one row per result. -/
theorem writeDetails_length_le (o : OracleStore) (tradeID : Nat)
    (rs : List AccountResult) :
    ∀ (st : Store) (i : Nat),
      (writeDetails o tradeID st i rs).2.details.length
        ≤ st.details.length + rs.length := by
  induction rs with
  | nil => intro st i; simp [writeDetails]
  | cons r rs ih =>
    intro st i
    cases rs with
    | nil =>
      simp only [writeDetails]
      cases o.detailErr i <;> simp [Store.addDetail]
    | cons r2 rs2 =>
      simp only [writeDetails]
      cases hc : o.detailErr i with
      | some e =>
        have h := ih st (i + 1)
        simp only [List.length_cons] at h ⊢
        omega
      | none =>
        have h := ih (st.addDetail (mkDetail tradeID r)) (i + 1)
        simp only [Store.addDetail, List.length_append, List.length_cons,
          List.length_nil] at h ⊢
        omega

/-- A failing `AddTradeDetail` in the middle of the loop silently loses
its row: fewer rows than results are appended. -/
theorem writeDetails_length_lt (o : OracleStore) (tradeID : Nat)
    (rs : List AccountResult) :
    ∀ (st : Store) (i j : Nat) (msg : String), j < rs.length →
      o.detailErr (i + j) = some msg →
      (writeDetails o tradeID st i rs).2.details.length
        < st.details.length + rs.length := by
  induction rs with
  | nil => intro st i j msg hj _; simp at hj
  | cons r rs ih =>
    intro st i j msg hj hfail
    cases rs with
    | nil =>
      have hj0 : j = 0 := by simpa using hj
      subst hj0
      simp only [Nat.add_zero] at hfail
      simp [writeDetails, hfail]
    | cons r2 rs2 =>
      simp only [writeDetails]
      cases j with
      | zero =>
        simp only [Nat.add_zero] at hfail
        rw [hfail]
        have h := writeDetails_length_le o tradeID (r2 :: rs2) st (i + 1)
        simp only [List.length_cons] at h ⊢
        omega
      | succ k =>
        have hk : k < (r2 :: rs2).length := by
          simp only [List.length_cons] at hj ⊢
          omega
        have hf2 : o.detailErr ((i + 1) + k) = some msg := by
          rw [show (i + 1) + k = i + (k + 1) by omega]
          exact hfail
        cases hc : o.detailErr i with
        | some e =>
          have h := ih st (i + 1) k msg hk hf2
          simp only [List.length_cons] at h ⊢
          omega
        | none =>
          have h := ih (st.addDetail (mkDetail tradeID r)) (i + 1) k msg hk hf2
          simp only [Store.addDetail, List.length_append, List.length_cons,
            List.length_nil] at h ⊢
          omega

/-- C10: `saveTrade` observes only the LAST detail write's error.  If
`AddTradeDetail` fails at some position other than the last while the
last write succeeds, `saveTrade` reports no error at all, still stamps
the derived status onto the trade row and still appends the activity-log
entry — while the failed row is silently missing from the details. -/
theorem C10_last_detail_error_only (o : OracleStore) (st : Store) (record : Trade)
    (result : ExecutionResult) (j : Nat) (msg : String)
    (hn : 2 ≤ result.Results.length)
    (hj : j + 1 < result.Results.length)
    (hfail : o.detailErr j = some msg)
    (hlast : o.detailErr (result.Results.length - 1) = none)
    (hcreate : o.createErr = none) (hstatus : o.statusErr = none)
    (hlog : o.logErr = none)
    (hwf : ∀ p ∈ st.trades, p.1 < st.nextID) :
    (saveTrade o st record result).1 = none ∧
    (saveTrade o st record result).2.logs
      = st.logs ++ [mkTradeLog "info" record result] ∧
    ((st.nextID, { record with Status := tradeStatus result, Error := "" })
      ∈ (saveTrade o st record result).2.trades) ∧
    (saveTrade o st record result).2.details.length
      < st.details.length + result.Results.length := by
  have hne : result.Results ≠ [] := by
    intro hc
    rw [hc] at hn
    simp at hn
  set st1 : Store :=
    { st with
        trades := st.trades ++ [(st.nextID, record)]
        nextID := st.nextID + 1 } with hst1def
  have hWDfst : (writeDetails o st.nextID st1 0 result.Results).1 = none := by
    rw [writeDetails_last_error o st.nextID result.Results st1 0 hne]
    simpa using hlast
  have hWDpair : writeDetails o st.nextID st1 0 result.Results
      = (none, (writeDetails o st.nextID st1 0 result.Results).2) :=
    Prod.ext_iff.mpr ⟨hWDfst, rfl⟩
  obtain ⟨hFt, hFl, hFc, hFn⟩ := writeDetails_frame o st.nextID result.Results st1 0
  have hsave : saveTrade o st record result
      = (none,
         (((writeDetails o st.nextID st1 0 result.Results).2).updateStatus
            st.nextID (tradeStatus result) "").addLog
           (mkTradeLog "info" record result)) := by
    unfold saveTrade
    rw [hcreate]
    dsimp only
    rw [show st.addTrade record = (st.nextID, st1) from rfl]
    dsimp only
    rw [hWDpair]
    dsimp only
    rw [hstatus]
    dsimp only
    unfold saveLog
    rw [hlog]
  rw [hsave]
  refine ⟨rfl, ?_, ?_, ?_⟩
  · simp only [Store.addLog, Store.updateStatus]
    rw [hFl]
  · simp only [Store.addLog, Store.updateStatus]
    rw [hFt]
    have hmem : (st.nextID, record) ∈ st1.trades := by
      rw [hst1def]
      simp
    have := List.mem_map_of_mem (fun p =>
      if p.1 == st.nextID then
        (p.1, { p.2 with Status := tradeStatus result, Error := "" }) else p) hmem
    simpa using this
  · simp only [Store.addLog, Store.updateStatus]
    have hlt := writeDetails_length_lt o st.nextID result.Results st1 0 j msg
      (by omega) (by simpa using hfail)
    have hd1 : st1.details = st.details := rfl
    rw [hd1] at hlt
    simpa using hlt

/-- A two-slave execution result: slave 1 succeeded, slave 2 failed. -/
def exResults2 : ExecutionResult :=
  ⟨2, 1, 1, [⟨1, "slave1", true, "", "ok1", 5⟩, ⟨2, "slave2", false, "err610", "", 7⟩]⟩

/-- A storage oracle whose `AddTradeDetail` fails only for the first
result. -/
def exOracle10 : OracleStore :=
  { createErr := none,
    detailErr := fun i => if i == 0 then some "db locked" else none,
    statusErr := none, logErr := none }

/-- C10, witness: the first of two detail writes fails, the second
succeeds; `saveTrade` reports success, logs, stamps the status, and one
detail row is missing. -/
theorem C10_last_detail_error_only_witness :
    2 ≤ exResults2.Results.length ∧
    exOracle10.detailErr 0 = some "db locked" ∧
    exOracle10.detailErr (exResults2.Results.length - 1) = none ∧
    ((saveTrade exOracle10 exStore0 exTradeRec exResults2).1 = none ∧
     (saveTrade exOracle10 exStore0 exTradeRec exResults2).2.logs
       = exStore0.logs ++ [mkTradeLog "info" exTradeRec exResults2] ∧
     ((exStore0.nextID, { exTradeRec with Status := tradeStatus exResults2, Error := "" })
       ∈ (saveTrade exOracle10 exStore0 exTradeRec exResults2).2.trades) ∧
     (saveTrade exOracle10 exStore0 exTradeRec exResults2).2.details.length
       < exStore0.details.length + exResults2.Results.length) :=
  ⟨by decide, rfl, rfl,
   C10_last_detail_error_only exOracle10 exStore0 exTradeRec exResults2 0
     "db locked" (by decide) (by decide) rfl rfl rfl rfl rfl (by simp [exStore0])⟩

end Mex
